import Mathlib

/-!
Verification of the job-tracker backend core: optimistic concurrency
(version guard), cursor pagination for the applications listing, and the
reminder scan/defer/dispatch engine.

Shallow embedding conventions:
- UUID primary keys are modelled as natural numbers (only identity and
  equality of ids matter to the verified properties).
- Timestamps are modelled as instants: integer minute counts since an
  arbitrary epoch, in UTC.  An aware Python datetime is represented by its
  instant; astimezone changes only the representation, never the instant,
  so conversions appear as explicit offset arithmetic on wall-clock values.
- Named timezones are modelled as fixed offsets (in minutes) looked up in a
  caller-supplied table, standing for the zoneinfo database; an unresolvable
  name degrades to UTC exactly as in the source.
- The database session is modelled as an explicit list of rows; a commit is
  the functional replacement of the mutated rows in that list.
- Raised exceptions are modelled with Except / explicit outcome types.
-/

/-- Error values raised by the service layer (src/core/exceptions.py).
The source represents these as exception classes carrying a status code,
title, problem type and detail; constructors here keep the observable
data that the claims mention.  NotFoundError carries meta resource and id;
the version-conflict ApplicationError carries meta resource, id and
current_version. -/
inductive AppError where
  | notFound (resource : String) (id : Nat)
  | invalidRequest (detail : String)
  | versionConflict (resource : String) (id : Nat) (currentVersion : Nat)
deriving Repr, DecidableEq

/-- HTTP status attached by the source exception classes: NotFoundError is
404, InvalidRequestError is 400, the conflict ApplicationError is 409. -/
def AppError.statusCode : AppError → Nat
  | .notFound _ _ => 404
  | .invalidRequest _ => 400
  | .versionConflict _ _ _ => 409

/-- Error raised by parse_if_match when the precondition token is absent
(spec name: PreconditionRequired); in the source it is
InvalidRequestError of detail "If-Match header is required.". -/
def preconditionRequired : AppError :=
  .invalidRequest "If-Match header is required."

/-- Error raised by parse_if_match when the token does not parse as an
integer (spec name: InvalidPrecondition). -/
def invalidPreconditionMalformed : AppError :=
  .invalidRequest "If-Match header is invalid."

/-- Error raised by parse_if_match when the token parses to a negative
integer (spec name: InvalidPrecondition). -/
def invalidPreconditionNegative : AppError :=
  .invalidRequest "If-Match header must be a positive integer."

/-- Spec name InvalidPrecondition covers both rejection sites for a
present-but-malformed token in parse_if_match. -/
def isInvalidPrecondition (e : AppError) : Bool :=
  e = invalidPreconditionMalformed || e = invalidPreconditionNegative

/-! ## Python int() parsing

parse_if_match calls the Python int constructor on the stripped candidate.
int() accepts optional surrounding whitespace, an optional single sign and
a nonempty digit string in which single underscores may appear between
digits.  (Non-ASCII digits are out of scope of this model.) -/

/-- Value of one decimal digit character. -/
def digitVal (c : Char) : Nat := c.toNat - 48

/-- Consume the remaining characters of a Python int literal after its
first digit: digits, with single underscores allowed only between digits. -/
def pyDigitsAux : List Char → Nat → Option Nat
  | [], acc => some acc
  | ['_'], _ => none
  | '_' :: c :: rest, acc =>
      if c.isDigit then pyDigitsAux rest (acc * 10 + digitVal c) else none
  | c :: rest, acc =>
      if c.isDigit then pyDigitsAux rest (acc * 10 + digitVal c) else none

/-- Consume a nonempty Python digit string (first char must be a digit). -/
def pyDigitsFirst : List Char → Option Nat
  | [] => none
  | c :: rest => if c.isDigit then pyDigitsAux rest (digitVal c) else none

/-- Magnitude and sign handling of the Python int constructor. -/
def pyIntOfChars : List Char → Option Int
  | '+' :: rest => (pyDigitsFirst rest).map (fun n => (n : Int))
  | '-' :: rest => (pyDigitsFirst rest).map (fun n => -(n : Int))
  | rest => (pyDigitsFirst rest).map (fun n => (n : Int))

/-- ASCII whitespace as stripped by the Python str.strip method (the
non-ASCII whitespace it also strips is outside the model). -/
def isPySpace (c : Char) : Bool :=
  c = ' ' || c = '\t' || c = '\n' || c = '\r' || c.toNat = 11 || c.toNat = 12

/-- Python str.strip() on a character list. -/
def trimChars (cs : List Char) : List Char :=
  ((cs.dropWhile isPySpace).reverse.dropWhile isPySpace).reverse

/-- Python int(s) for a string: strip whitespace, then sign and digits. -/
def pyInt (s : String) : Option Int := pyIntOfChars (trimChars s.toList)

/-- Drop every leading and trailing double-quote character, as the Python
expression candidate.strip(dq) does for the double-quote char dq. -/
def stripQuotesChars (cs : List Char) : List Char :=
  ((cs.dropWhile (fun c => c.toNat = 34)).reverse.dropWhile
    (fun c => c.toNat = 34)).reverse

/-- Embedding of parse_if_match (src/applications/utils.py lines 34-47).
The token is Option String: none models an absent If-Match header; the
Python falsy test also treats an empty string as absent.  On success the
parsed expected version (a non-negative integer) is returned.
The identical helper imported by src/reminders/service.py and
src/activities/service.py from src/reminders/utils.py and
src/activities/utils.py is absent from src; per the spec (section 4.1:
same token grammar and failure modes for every entity) those copies are
modelled by this same function. -/
def parse_if_match (version : Option String) : Except AppError Nat :=
  match version with
  | none => .error preconditionRequired
  | some v =>
    if v = "" then .error preconditionRequired
    else
      let c0 := trimChars v.toList
      let c1 := match c0 with
                | 'W' :: '/' :: rest => trimChars rest
                | _ => c0
      let c2 := String.mk (stripQuotesChars c1)
      match pyInt c2 with
      | none => .error invalidPreconditionMalformed
      | some n =>
        if n < 0 then .error invalidPreconditionNegative
        else .ok n.toNat

/-! ## Application rows and CRUD (src/applications/service.py)

An application row keeps the columns the verified claims inspect: primary
key, owner id, creation instant and version, plus the remaining mutable
columns as an association map from column name to an optional value
(None clears a column).  updated_at bookkeeping is not inspected by any
claim and is omitted. -/

structure ApplicationRow where
  id : Nat
  userId : Nat
  createdAt : Int
  version : Nat
  fields : List (String × Option String)
deriving Repr, DecidableEq

/-- Set one column on the association map, as setattr does. -/
def setField (fields : List (String × Option String)) (key : String)
    (value : Option String) : List (String × Option String) :=
  if (fields.find? (fun kv => kv.1 = key)).isSome then
    fields.map (fun kv => if kv.1 = key then (key, value) else kv)
  else
    fields ++ [(key, value)]

/-- Apply a partial-update patch: each listed column is assigned in order,
as the source loop for field, value in update_data.items() does. -/
def applyPatch (fields : List (String × Option String))
    (patch : List (String × Option String)) : List (String × Option String) :=
  patch.foldl (fun acc kv => setField acc kv.1 kv.2) fields

/-- Embedding of get_application (lines 140-171): select the row matching
both the primary key and the owner id; absent row raises NotFoundError
with meta resource "applications" and the requested id. -/
def get_application (db : List ApplicationRow) (userId appId : Nat) :
    Except AppError ApplicationRow :=
  match db.find? (fun r => r.id = appId && r.userId = userId) with
  | some a => .ok a
  | none => .error (.notFound "applications" appId)

/-- Embedding of update_application (lines 174-222).  Returns the
committed database and the returned row.  An error leaves the stored rows
untouched: the source raises before any mutation on the conflict path, and
the session is only committed on the success path. -/
def update_application (db : List ApplicationRow) (userId appId : Nat)
    (updateData : List (String × Option String)) (ifMatch : Option String) :
    Except AppError (List ApplicationRow × ApplicationRow) := do
  let expectedVersion ← parse_if_match ifMatch
  let application ← get_application db userId appId
  if application.version ≠ expectedVersion then
    .error (.versionConflict "applications" appId application.version)
  else if updateData.isEmpty then
    .ok (db, application)
  else
    let updated : ApplicationRow :=
      { application with
        fields := applyPatch application.fields updateData,
        version := application.version + 1 }
    .ok (db.map (fun r => if r.id = appId && r.userId = userId then updated else r),
         updated)

/-- Embedding of delete_application (lines 225-263): same precondition and
version guard as update, then the row is removed and committed. -/
def delete_application (db : List ApplicationRow) (userId appId : Nat)
    (ifMatch : Option String) : Except AppError (List ApplicationRow) := do
  let expectedVersion ← parse_if_match ifMatch
  let application ← get_application db userId appId
  if application.version ≠ expectedVersion then
    .error (.versionConflict "applications" appId application.version)
  else
    .ok (db.filter (fun r => !(r.id = application.id && r.userId = userId)))

/-! ## Activity rows and the versioned update (src/activities/service.py)

Activities follow the identical guard pattern with resource tag
"activities"; the claim-relevant columns are the same shape as for
applications plus the owning application id. -/

structure ActivityRow where
  id : Nat
  userId : Nat
  applicationId : Nat
  version : Nat
  fields : List (String × Option String)
deriving Repr, DecidableEq

/-- Embedding of get_activity (src/activities/service.py lines 82-111). -/
def get_activity (db : List ActivityRow) (userId activityId : Nat) :
    Except AppError ActivityRow :=
  match db.find? (fun r => r.id = activityId && r.userId = userId) with
  | some a => .ok a
  | none => .error (.notFound "activities" activityId)

/-- Embedding of update_activity (src/activities/service.py lines
113-161): same structure as update_application with resource
"activities". -/
def update_activity (db : List ActivityRow) (userId activityId : Nat)
    (updateData : List (String × Option String)) (ifMatch : Option String) :
    Except AppError (List ActivityRow × ActivityRow) := do
  let expectedVersion ← parse_if_match ifMatch
  let activity ← get_activity db userId activityId
  if activity.version ≠ expectedVersion then
    .error (.versionConflict "activities" activityId activity.version)
  else if updateData.isEmpty then
    .ok (db, activity)
  else
    let updated : ActivityRow :=
      { activity with
        fields := applyPatch activity.fields updateData,
        version := activity.version + 1 }
    .ok (db.map (fun r => if r.id = activityId && r.userId = userId then updated else r),
         updated)

/-! ## Reminder rows and CRUD (src/reminders/service.py, models.py) -/

/-- Delivery channel enumeration (src/reminders/models.py lines 31-34). -/
inductive ReminderChannel where
  | in_app
  | email
  | calendar
deriving Repr, DecidableEq

/-- String value of a channel member, as the Python enum value. -/
def ReminderChannel.value : ReminderChannel → String
  | .in_app => "in_app"
  | .email => "email"
  | .calendar => "calendar"

/-- Constructing ReminderChannel from a raw tag; an unrecognized tag raises
ValueError in Python, modelled as none. -/
def ReminderChannel.ofTag : String → Option ReminderChannel
  | "in_app" => some .in_app
  | "email" => some .email
  | "calendar" => some .calendar
  | _ => none

/-- JSONB metadata values stored on a reminder: the engine writes a list
of channel tags and an instant string; free-form string entries such as
body and action_url also occur. -/
inductive MetaVal where
  | s (v : String)
  | tags (v : List String)
deriving Repr, DecidableEq

/-- Lookup in a metadata dictionary (last write wins, as dict assignment). -/
def metaGet (meta : List (String × MetaVal)) (key : String) : Option MetaVal :=
  (meta.reverse.find? (fun kv => kv.1 = key)).map (fun kv => kv.2)

/-- Dictionary assignment meta[key] = value. -/
def metaSet (meta : List (String × MetaVal)) (key : String) (value : MetaVal) :
    List (String × MetaVal) :=
  if (meta.find? (fun kv => kv.1 = key)).isSome then
    meta.map (fun kv => if kv.1 = key then (key, value) else kv)
  else
    meta ++ [(key, value)]

/-- Reminder row (src/reminders/models.py lines 51-107).  channels keeps
the raw stored tags (an element may be none, matching the None elements
_parse_channels tolerates); meta is the JSONB dictionary. -/
structure ReminderRow where
  id : Nat
  userId : Nat
  applicationId : Option Nat
  activityId : Option Nat
  title : String
  dueAt : Int
  channels : List (Option String)
  sent : Bool
  sentAt : Option Int
  dedupeKey : Option String
  meta : List (String × MetaVal)
  version : Nat
deriving Repr, DecidableEq

/-- Embedding of get_reminder (src/reminders/service.py lines 82-106). -/
def get_reminder (db : List ReminderRow) (userId reminderId : Nat) :
    Except AppError ReminderRow :=
  match db.find? (fun r => r.id = reminderId && r.userId = userId) with
  | some r => .ok r
  | none => .error (.notFound "reminders" reminderId)

/-- Creation payload for a reminder; none marks a key absent from the
request data (the source drops keys whose value is None before
constructing the row, so absent and None coincide). -/
structure ReminderPayload where
  id : Option Nat := none
  applicationId : Option Nat := none
  activityId : Option Nat := none
  title : Option String := none
  dueAt : Option Int := none
  channels : Option (List (Option String)) := none
  dedupeKey : Option String := none
  meta : Option (List (String × MetaVal)) := none
deriving Repr, DecidableEq

/-- Row constructed by Reminder(user_id=..., **payload) with the column
defaults of src/reminders/models.py: channels defaults to the in_app
singleton, sent to false, version to 1; a generated id is used unless the
payload carries one. -/
def buildReminder (userId freshId : Nat) (data : ReminderPayload) : ReminderRow :=
  { id := data.id.getD freshId
    userId := userId
    applicationId := data.applicationId
    activityId := data.activityId
    title := data.title.getD ""
    dueAt := data.dueAt.getD 0
    channels := data.channels.getD [some "in_app"]
    sent := false
    sentAt := none
    dedupeKey := data.dedupeKey
    meta := data.meta.getD []
    version := 1 }

/-- Table constraints declared on reminders (src/reminders/models.py
lines 91-107) as enforced by the storage engine at commit:
ck_reminders_application_or_activity requires application_id or
activity_id to be present; uq_reminders_user_dedupe_key makes
(user_id, dedupe_key) unique; the primary key is unique. -/
def reminderTableConstraints (r : ReminderRow) (db : List ReminderRow) : Bool :=
  (r.applicationId.isSome || r.activityId.isSome)
    && db.all (fun x => !(x.id = r.id))
    && (r.dedupeKey.isNone
        || db.all (fun x => !(x.userId = r.userId && x.dedupeKey = r.dedupeKey)))

/-- Embedding of create_reminder (src/reminders/service.py lines 56-79).
The storage argument models the persistence engine commit: it accepts or
rejects the new row given the existing rows; a rejection is the
IntegrityError path, re-raised as InvalidRequestError.  The source body
contains no validation of its own before db.add / commit, so every check
lives in the storage argument; instantiating it with
reminderTableConstraints gives the declared schema behaviour, and any
other instantiation gives the service with a storage engine enforcing
different constraints. -/
def create_reminder (storage : ReminderRow → List ReminderRow → Bool)
    (db : List ReminderRow) (userId freshId : Nat) (data : ReminderPayload) :
    Except AppError (List ReminderRow × ReminderRow) :=
  let reminder := buildReminder userId freshId data
  if storage reminder db then
    .ok (db ++ [reminder], reminder)
  else
    .error (.invalidRequest "Unable to create reminder with provided data.")

/-- Partial-update patch for a reminder: an outer some marks the column as
present in update_data; for nullable columns the inner option is the
assigned value. -/
structure ReminderPatch where
  title : Option String := none
  dueAt : Option Int := none
  channels : Option (List (Option String)) := none
  sent : Option Bool := none
  sentAt : Option (Option Int) := none
  dedupeKey : Option (Option String) := none
  meta : Option (List (String × MetaVal)) := none
  applicationId : Option (Option Nat) := none
  activityId : Option (Option Nat) := none
deriving Repr, DecidableEq

/-- Python truthiness of the update_data dict: empty means no key present. -/
def ReminderPatch.isEmpty (p : ReminderPatch) : Bool :=
  p.title.isNone && p.dueAt.isNone && p.channels.isNone && p.sent.isNone
    && p.sentAt.isNone && p.dedupeKey.isNone && p.meta.isNone
    && p.applicationId.isNone && p.activityId.isNone

/-- Apply the setattr loop of update_reminder to a row. -/
def ReminderPatch.applyTo (p : ReminderPatch) (r : ReminderRow) : ReminderRow :=
  { r with
    title := p.title.getD r.title
    dueAt := p.dueAt.getD r.dueAt
    channels := p.channels.getD r.channels
    sent := p.sent.getD r.sent
    sentAt := p.sentAt.getD r.sentAt
    dedupeKey := p.dedupeKey.getD r.dedupeKey
    meta := p.meta.getD r.meta
    applicationId := p.applicationId.getD r.applicationId
    activityId := p.activityId.getD r.activityId }

/-- Embedding of update_reminder (src/reminders/service.py lines 109-154):
precondition parse, owner-scoped lookup, version guard raising the
conflict error with meta current_version, then the patch plus a version
increment committed together; an empty patch commits nothing. -/
def update_reminder (db : List ReminderRow) (userId reminderId : Nat)
    (updateData : ReminderPatch) (ifMatch : Option String) :
    Except AppError (List ReminderRow × ReminderRow) := do
  let expectedVersion ← parse_if_match ifMatch
  let reminder ← get_reminder db userId reminderId
  if reminder.version ≠ expectedVersion then
    .error (.versionConflict "reminders" reminderId reminder.version)
  else if updateData.isEmpty then
    .ok (db, reminder)
  else
    let updated : ReminderRow :=
      { updateData.applyTo reminder with version := reminder.version + 1 }
    .ok (db.map (fun r => if r.id = reminderId && r.userId = userId then updated else r),
         updated)

/-! ## Reminder engine (src/background/reminder_engine.py)

A timezone table tzdb maps a zone name to a fixed offset in minutes; this
models the zoneinfo database with fixed-offset zones (daylight-saving
transitions are outside the model).  Local wall-clock minutes of an
instant t under offset off are t + off; a local time-of-day is a minute
count in [0, 1440). -/

/-- Per-user settings row (src/user/models.py lines 75-98); quiet-hours
bounds are local times of day, absent when null.  The Python falsy test in
the engine is on None: since Python 3.5 every time value, midnight
included, is truthy. -/
structure UserSettingsRow where
  quietHoursStart : Option Int
  quietHoursEnd : Option Int
deriving Repr, DecidableEq

/-- User row (src/user/models.py lines 29-72): the engine reads id, email,
the named timezone and the optional settings row. -/
structure UserRow where
  id : Nat
  email : String
  timezone : Option String
  settings : Option UserSettingsRow
deriving Repr, DecidableEq

/-- Embedding of _resolve_timezone (lines 133-139): a missing name or a
name not in the zoneinfo table degrades to UTC (offset 0). -/
def resolve_timezone (tzdb : String → Option Int) : Option String → Int
  | none => 0
  | some name => (tzdb name).getD 0

/-- Embedding of _is_within_quiet_hours (lines 127-130): a window with
start < end is a same-day range, otherwise it wraps past midnight. -/
def is_within_quiet_hours (current start e : Int) : Bool :=
  if start < e then start ≤ current && current < e
  else current ≥ start || current < e

/-- Embedding of _next_allowed_send_time (lines 104-124).  Returns the
deferral instant, or none when the user has no complete quiet-hours
window, the window is degenerate (start = end), or now is outside it.
The arithmetic mirrors the source on instants: local_now is the owner
wall clock; datetime.combine of the local date with the end time is
localDate * 1440 + end on the wall clock; the aware comparison
local_end <= local_now compares instants, equivalently wall values under
one offset; the final astimezone(utc) returns the instant itself. -/
def next_allowed_send_time (tzdb : String → Option Int) (user : UserRow)
    (now : Int) : Option Int :=
  match user.settings with
  | none => none
  | some settings =>
    match settings.quietHoursStart, settings.quietHoursEnd with
    | some start, some e =>
      let off := resolve_timezone tzdb user.timezone
      let localNow := now + off
      if start = e then none
      else if !is_within_quiet_hours (localNow % 1440) start e then none
      else
        let localEnd := (localNow / 1440) * 1440 + e
        let localEnd := if localEnd ≤ localNow then localEnd + 1440 else localEnd
        some (localEnd - off)
    | _, _ => none

/-- Embedding of _parse_channels (lines 87-101): None elements and
unrecognized tags are dropped, recognized tags are kept in order with
duplicates preserved, and an empty result defaults to the in_app
singleton. -/
def parse_channels (channels : List (Option String)) : List ReminderChannel :=
  let parsed := channels.filterMap (fun c => c.bind ReminderChannel.ofTag)
  if parsed.isEmpty then [.in_app] else parsed

/-- Email hand-off recorded by send_email_task.delay (lines 73-84). -/
structure EmailTask where
  recipients : List String
  subject : String
  templateName : String
  bodyTitle : String
  bodyBody : String
  actionUrl : Option String
deriving Repr, DecidableEq

/-- Rendering of datetime.isoformat in the model: instants are abstract
minute counts, so their ISO rendering is modelled as the injective
decimal rendering of the count. -/
def isoOfInstant (t : Int) : String := toString t

/-- Metadata entry read as a string, as meta.get returns. -/
def metaGetString (meta : List (String × MetaVal)) (key : String) :
    Option String :=
  match metaGet meta key with
  | some (.s v) => some v
  | _ => none

/-- Embedding of _dispatch_reminder (lines 60-84): parse the channel list,
record the dispatched tags and the dispatch instant in the metadata
dictionary, and when the email tag is among the dispatched values and the
owner is loaded, hand off one email task. -/
def dispatch_reminder (reminder : ReminderRow) (user : Option UserRow)
    (now : Int) : ReminderRow × List EmailTask :=
  let dispatched := (parse_channels reminder.channels).map ReminderChannel.value
  let meta0 := reminder.meta
  let meta1 := metaSet meta0 "dispatched_channels" (.tags dispatched)
  let meta2 := metaSet meta1 "dispatched_at" (.s (isoOfInstant now))
  let defaultBody :=
    "Reminder: " ++ reminder.title ++ ". Due at " ++ isoOfInstant reminder.dueAt
  let metaBody := (metaGetString meta2 "body").getD defaultBody
  let updated := { reminder with meta := meta2 }
  let emails :=
    match user with
    | some u =>
      if dispatched.contains "email" then
        [{ recipients := [u.email]
           subject := reminder.title
           templateName := "reminder_email.html"
           bodyTitle := reminder.title
           bodyBody := metaBody
           actionUrl := metaGetString meta2 "action_url" }]
      else []
    | none => []
  (updated, emails)

/-- Outcome of one iteration of the scan loop (lines 39-54) for one
candidate reminder. -/
inductive ScanAction where
  | skipped
  | deferred (updated : ReminderRow)
  | dispatched (updated : ReminderRow) (emails : List EmailTask)
deriving Repr, DecidableEq

/-- Dispatch leg of the loop body (lines 50-54): run _dispatch_reminder,
then mark the row sent at the reference instant and increment its
version. -/
def dispatchAction (reminder : ReminderRow) (user : UserRow) (now : Int) :
    ScanAction :=
  let r1 := (dispatch_reminder reminder (some user) now).1
  .dispatched
    { r1 with sent := true, sentAt := some now, version := r1.version + 1 }
    (dispatch_reminder reminder (some user) now).2

/-- One iteration of the loop body (lines 39-54): resolve the owner (a
missing owner row skips the reminder), defer when the quiet-hours
computation yields an instant later than now, otherwise dispatch and mark
sent with the version increment. -/
def scan_reminder (tzdb : String → Option Int) (users : List UserRow)
    (now : Int) (reminder : ReminderRow) : ScanAction :=
  match users.find? (fun u => u.id = reminder.userId) with
  | none => .skipped
  | some user =>
    match next_allowed_send_time tzdb user now with
    | some d =>
      if now < d then
        .deferred { reminder with dueAt := d, version := reminder.version + 1 }
      else dispatchAction reminder user now
    | none => dispatchAction reminder user now

/-- Row written back for a processed reminder, if any. -/
def scan_update (tzdb : String → Option Int) (users : List UserRow)
    (now : Int) (reminder : ReminderRow) : Option ReminderRow :=
  match scan_reminder tzdb users now reminder with
  | .skipped => none
  | .deferred r => some r
  | .dispatched r _ => some r

/-- Left-to-right processing of the fetched batch, collecting the mutated
rows, the sent and deferred counts and the email hand-offs. -/
def scan_batch (tzdb : String → Option Int) (users : List UserRow)
    (now : Int) : List ReminderRow →
    List ReminderRow × Nat × Nat × List EmailTask
  | [] => ([], 0, 0, [])
  | r :: rest =>
    match scan_reminder tzdb users now r with
    | .skipped => scan_batch tzdb users now rest
    | .deferred r1 =>
      let (u, s, d, e) := scan_batch tzdb users now rest
      (r1 :: u, s, d + 1, e)
    | .dispatched r1 em =>
      let (u, s, d, e) := scan_batch tzdb users now rest
      (r1 :: u, s + 1, d, em ++ e)

/-- Modelled from the spec: get_due_reminders is referenced by the engine
(src/background/reminder_engine.py line 29) but its definition in
src/reminders/service.py is absent from src.  Spec section 4.4 describes
the fetched candidates as the reminders with due_at <= now and
sent = false. -/
def get_due_reminders (db : List ReminderRow) (now : Int) : List ReminderRow :=
  db.filter (fun r => r.dueAt ≤ now && !r.sent)

/-- Commit of the scan session: each fetched row object that the loop
mutated is written back; rows are identified by primary key. -/
def applyUpdates (db : List ReminderRow) (upds : List ReminderRow) :
    List ReminderRow :=
  db.map (fun r => ((upds.find? (fun u => u.id = r.id)).getD r))

/-- Scan counters returned by the engine (lines 17-20). -/
structure ReminderProcessingResult where
  sent : Nat
  deferred : Nat
deriving Repr, DecidableEq

/-- Candidate batch fetched by the scan: the due reminders, truncated to
the configured batch size when that setting is positive (lines 29-31). -/
def scanBatchOf (batchSize : Int) (db : List ReminderRow) (now : Int) :
    List ReminderRow :=
  let due := get_due_reminders db now
  if 0 < batchSize then due.take batchSize.toNat else due

/-- Embedding of process_due_reminders (lines 23-57).  batchSize models
the configuration value settings.REMINDER_DISPATCH_BATCH_SIZE.  Returns
the committed reminder rows, the counters and the email hand-offs.  The
early return on an empty batch commits nothing, which coincides with
applying an empty update list. -/
def process_due_reminders (tzdb : String → Option Int) (batchSize : Int)
    (users : List UserRow) (db : List ReminderRow) (now : Int) :
    List ReminderRow × ReminderProcessingResult × List EmailTask :=
  let batch := scanBatchOf batchSize db now
  let (upds, s, d, ems) := scan_batch tzdb users now batch
  (applyUpdates db upds, { sent := s, deferred := d }, ems)

/-! ## Cursor pagination for the applications listing
(src/applications/service.py lines 20-111)

The ordering key of a row is the pair (created_at, id); the listing is
ordered by created_at descending then id descending.  At this layer the
cursor travels as its decoded (created_at, id) pair: encode_cursor
serializes exactly this pair of the last returned row and decode_cursor
inverts it (the byte-level codec and its failure modes are modelled
separately below for the robustness claim). -/

/-- Ordering key of a row: (created_at, id). -/
def appKey (r : ApplicationRow) : Int × Nat := (r.createdAt, r.id)

/-- Strict lexicographic order on keys; keyLt (appKey r) (ts, i) is
exactly the SQL pagination predicate created_at < ts OR
(created_at = ts AND id < i) of lines 61-69. -/
def keyLt (a b : Int × Nat) : Prop :=
  a.1 < b.1 ∨ (a.1 = b.1 ∧ a.2 < b.2)

instance (a b : Int × Nat) : Decidable (keyLt a b) := by
  unfold keyLt; infer_instance

/-- Comparator handed to the sort: a row may precede another exactly when
its key is not smaller, realizing ORDER BY created_at DESC, id DESC. -/
def appLe (a b : ApplicationRow) : Bool := !(decide (keyLt (appKey a) (appKey b)))

/-- SQL cursor predicate of lines 61-69 applied to a row. -/
def cursorPred (k : Int × Nat) (r : ApplicationRow) : Bool :=
  decide (keyLt (appKey r) k)

/-- Cursor filter: absent cursor keeps every row. -/
def cursorOk : Option (Int × Nat) → ApplicationRow → Bool
  | none, _ => true
  | some k, r => cursorPred k r

/-- Embedding of list_applications (lines 20-111) at the default filters
(status, q, tag, priority and archived at None: lines 71-93 add no
conditions then).  maxPageSize stands for MAX_PAGE_SIZE, imported from
src/applications/constants.py which is absent from src; the spec names
the constant without fixing its value, so it is a parameter here.  The
query selects the owner rows passing the cursor predicate, orders them by
key descending, fetches limit + 1 rows; the extra row only signals
has_more, and the next cursor is the key of the last returned row. -/
def list_applications (db : List ApplicationRow) (userId : Nat)
    (limit maxPageSize : Int) (cursor : Option (Int × Nat)) :
    Except AppError (List ApplicationRow × Option (Int × Nat)) :=
  if limit ≤ 0 then
    .error (.invalidRequest "limit must be greater than zero.")
  else if maxPageSize < limit then
    .error (.invalidRequest "limit cannot exceed MAX_PAGE_SIZE.")
  else
    let selected := db.filter (fun r => r.userId = userId && cursorOk cursor r)
    let ordered := selected.mergeSort appLe
    let lim := limit.toNat
    let rows := ordered.take (lim + 1)
    let hasMore := decide (lim < rows.length)
    let applications := rows.take lim
    let nextCursor := if hasMore then applications.getLast?.map appKey else none
    .ok (applications, nextCursor)

/-- Concatenation of successive pages following the chain of next_cursor
values, with fuel bounding the number of requests. -/
def list_chain (db : List ApplicationRow) (userId : Nat)
    (limit maxPageSize : Int) : Nat → Option (Int × Nat) →
    Except AppError (List ApplicationRow)
  | 0, _ => .ok []
  | fuel + 1, cursor =>
    match list_applications db userId limit maxPageSize cursor with
    | .error e => .error e
    | .ok (apps, none) => .ok apps
    | .ok (apps, some k) =>
      match list_chain db userId limit maxPageSize fuel (some k) with
      | .error e => .error e
      | .ok rest => .ok (apps ++ rest)

/-! ## Cursor decoding robustness (src/applications/utils.py lines 22-31)

decode_cursor runs base64 decoding, utf-8 decoding, json parsing, two
dictionary subscripts, datetime.fromisoformat and the UUID constructor
inside one try block whose except clause catches exactly ValueError,
KeyError and json.JSONDecodeError.  The Python exceptions that can escape
from these stages are modelled below; binascii.Error, UnicodeDecodeError
and json.JSONDecodeError are subclasses of ValueError and are modelled as
valueError. -/

/-- Python exception kinds reachable from the decode pipeline. -/
inductive PyExc where
  | valueError (msg : String)
  | keyError (key : String)
  | typeError (msg : String)
  | attributeError (msg : String)
deriving Repr, DecidableEq

/-- Membership of an exception in the except tuple
(ValueError, KeyError, json.JSONDecodeError) of line 30. -/
def PyExc.isCaughtByDecodeCursor : PyExc → Bool
  | .valueError _ => true
  | .keyError _ => true
  | .typeError _ => false
  | .attributeError _ => false

/-- Named characters used below, kept out of literals. -/
def dquoteChar : Char := Char.ofNat 34

def lbraceChar : Char := Char.ofNat 123

def rbraceChar : Char := Char.ofNat 125

def bslashChar : Char := Char.ofNat 92

/-- Value of one base64 character after the urlsafe translation of the
minus and underscore alternate characters. -/
def b64CharVal (c : Char) : Option Nat :=
  if 65 ≤ c.toNat ∧ c.toNat ≤ 90 then some (c.toNat - 65)
  else if 97 ≤ c.toNat ∧ c.toNat ≤ 122 then some (c.toNat - 97 + 26)
  else if 48 ≤ c.toNat ∧ c.toNat ≤ 57 then some (c.toNat - 48 + 52)
  else if c = '+' ∨ c = '-' then some 62
  else if c = '/' ∨ c = '_' then some 63
  else none

/-- Reassemble bytes from 6-bit groups; a single leftover group cannot
contribute a byte and is a decoding error. -/
def b64Groups : List Nat → Option (List Nat)
  | [] => some []
  | [_] => none
  | [a, b] => some [a * 4 + b / 16]
  | [a, b, c] => some [a * 4 + b / 16, (b % 16) * 16 + c / 4]
  | a :: b :: c :: d :: rest =>
    (b64Groups rest).map
      (fun tl => (a * 4 + b / 16) :: ((b % 16) * 16 + c / 4) :: ((c % 4) * 64 + d) :: tl)

/-- Model of base64.urlsafe_b64decode with the default validate=False:
characters outside the alphabet and padding are discarded, the surviving
length must be a multiple of four, and the groups before the first
padding character decode to bytes.  Pathological placements of padding
characters in the interior are treated as decoding errors; the
binascii.Error raised on invalid input is a ValueError subclass. -/
def urlsafeB64decode (s : String) : Except PyExc (List Nat) :=
  let kept := s.toList.filter (fun c => (b64CharVal c).isSome || c = '=')
  if kept.length % 4 ≠ 0 then
    .error (.valueError "Invalid base64-encoded string")
  else
    let body := kept.takeWhile (fun c => c ≠ '=')
    if (kept.dropWhile (fun c => c ≠ '=')).any (fun c => c ≠ '=') then
      .error (.valueError "Invalid base64-encoded string")
    else
      match b64Groups (body.filterMap b64CharVal) with
      | some bytes => .ok bytes
      | none => .error (.valueError "Invalid base64-encoded string")

/-- Model of bytes.decode("utf-8") restricted to ASCII payloads;
a byte outside ASCII is treated as undecodable (UnicodeDecodeError, a
ValueError subclass).  Multi-byte UTF-8 sequences are outside the model:
every payload the verified statements touch is ASCII. -/
def utf8DecodeAscii (bytes : List Nat) : Except PyExc String :=
  if bytes.all (fun b => b < 128) then
    .ok (String.mk (bytes.map Char.ofNat))
  else
    .error (.valueError "UnicodeDecodeError")

/-- JSON values; numeric literals are modelled as integers (payloads with
fractional or exponent parts are outside the model and rejected by the
parser). -/
inductive Json where
  | null
  | bool (b : Bool)
  | num (n : Int)
  | str (s : String)
  | arr (elems : List Json)
  | obj (members : List (String × Json))
deriving Repr, BEq

/-- JSON whitespace. -/
def isJsonWs (c : Char) : Bool :=
  c = ' ' || c = '\n' || c = '\t' || c = '\r'

def skipWs (cs : List Char) : List Char := cs.dropWhile isJsonWs

/-- Parse the remainder of a JSON string literal after the opening quote;
returns the value and the rest.  Escapes cover the single-character
escapes of the grammar; \u escapes give the code point (surrogate pairing
is outside the model).  Unescaped control characters are rejected, as in
the strict json.loads. -/
def parseJsonString : Nat → List Char → Option (String × List Char)
  | 0, _ => none
  | _, [] => none
  | fuel + 1, c :: rest =>
    if c = dquoteChar then some ("", rest)
    else if c = bslashChar then
      match rest with
      | [] => none
      | e :: rest2 =>
        let esc : Option Char :=
          if e = dquoteChar then some dquoteChar
          else if e = bslashChar then some bslashChar
          else if e = '/' then some '/'
          else if e = 'n' then some '\n'
          else if e = 't' then some '\t'
          else if e = 'r' then some '\r'
          else if e = 'b' then some (Char.ofNat 8)
          else if e = 'f' then some (Char.ofNat 12)
          else none
        match esc with
        | some ch =>
          (parseJsonString fuel rest2).map
            (fun st => (String.mk (ch :: st.1.toList), st.2))
        | none =>
          if e = 'u' then
            match rest2 with
            | h1 :: h2 :: h3 :: h4 :: rest3 =>
              let hex? : Char → Option Nat := fun hc =>
                if 48 ≤ hc.toNat ∧ hc.toNat ≤ 57 then some (hc.toNat - 48)
                else if 97 ≤ hc.toNat ∧ hc.toNat ≤ 102 then some (hc.toNat - 87)
                else if 65 ≤ hc.toNat ∧ hc.toNat ≤ 70 then some (hc.toNat - 55)
                else none
              match hex? h1, hex? h2, hex? h3, hex? h4 with
              | some a, some b, some c3, some d =>
                (parseJsonString fuel rest3).map
                  (fun st =>
                    (String.mk (Char.ofNat (((a * 16 + b) * 16 + c3) * 16 + d) :: st.1.toList),
                     st.2))
              | _, _, _, _ => none
            | _ => none
          else none
    else if c.toNat < 32 then none
    else
      (parseJsonString fuel rest).map
        (fun st => (String.mk (c :: st.1.toList), st.2))

/-- Parse a JSON integer literal (fractional and exponent parts are
outside the model and fail the parse). -/
def parseJsonNum (cs : List Char) : Option (Int × List Char) :=
  let (sign, cs1) : Int × List Char :=
    match cs with
    | '-' :: rest => (-1, rest)
    | _ => (1, cs)
  let digits := cs1.takeWhile Char.isDigit
  let rest := cs1.dropWhile Char.isDigit
  if digits.isEmpty then none
  else
    match rest with
    | '.' :: _ => none
    | 'e' :: _ => none
    | 'E' :: _ => none
    | _ => some (sign * (digits.foldl (fun acc c => acc * 10 + digitVal c) 0), rest)

mutual

/-- Recursive-descent parse of one JSON value. -/
def parseJsonVal : Nat → List Char → Option (Json × List Char)
  | 0, _ => none
  | fuel + 1, cs =>
    match skipWs cs with
    | [] => none
    | 'n' :: 'u' :: 'l' :: 'l' :: rest => some (.null, rest)
    | 't' :: 'r' :: 'u' :: 'e' :: rest => some (.bool true, rest)
    | 'f' :: 'a' :: 'l' :: 's' :: 'e' :: rest => some (.bool false, rest)
    | c :: rest =>
      if c = dquoteChar then
        (parseJsonString (fuel + 1) rest).map (fun st => (.str st.1, st.2))
      else if c = '[' then
        match skipWs rest with
        | ']' :: rest2 => some (.arr [], rest2)
        | _ => (parseJsonArrItems fuel rest).map (fun it => (.arr it.1, it.2))
      else if c = lbraceChar then
        match skipWs rest with
        | r2 =>
          match r2 with
          | x :: rest2 =>
            if x = rbraceChar then some (.obj [], rest2)
            else (parseJsonObjItems fuel (x :: rest2)).map (fun it => (.obj it.1, it.2))
          | [] => none
      else
        parseJsonNum (c :: rest) |>.map (fun nr => (.num nr.1, nr.2))

/-- Comma-separated items of a JSON array, ending at the closing bracket. -/
def parseJsonArrItems : Nat → List Char → Option (List Json × List Char)
  | 0, _ => none
  | fuel + 1, cs => do
    let (v, rest) ← parseJsonVal fuel cs
    match skipWs rest with
    | ',' :: rest2 =>
      let (vs, rest3) ← parseJsonArrItems fuel rest2
      some (v :: vs, rest3)
    | ']' :: rest2 => some ([v], rest2)
    | _ => none

/-- Comma-separated members of a JSON object, ending at the closing
brace. -/
def parseJsonObjItems : Nat → List Char → Option (List (String × Json) × List Char)
  | 0, _ => none
  | fuel + 1, cs =>
    match skipWs cs with
    | c :: rest =>
      if c = dquoteChar then do
        let (k, rest2) ← parseJsonString (fuel + 1) rest
        match skipWs rest2 with
        | ':' :: rest3 => do
          let (v, rest4) ← parseJsonVal fuel rest3
          match skipWs rest4 with
          | ',' :: rest5 =>
            let (ms, rest6) ← parseJsonObjItems fuel rest5
            some ((k, v) :: ms, rest6)
          | x :: rest5 =>
            if x = rbraceChar then some ([(k, v)], rest5) else none
          | [] => none
        | _ => none
      else none
    | [] => none

end

/-- Model of json.loads: parse one value and require only whitespace to
follow; any parse failure is json.JSONDecodeError, a ValueError
subclass. -/
def jsonLoads (s : String) : Except PyExc Json :=
  match parseJsonVal (s.length + 1) s.toList with
  | some (j, rest) =>
    if (skipWs rest).isEmpty then .ok j
    else .error (.valueError "JSONDecodeError: Extra data")
  | none => .error (.valueError "JSONDecodeError: Expecting value")

/-- Python subscript payload[key] for a decoded JSON value: dictionaries
look the key up (absent key raises KeyError, and repeated keys in the
source text leave the last value, as json.loads builds the dict by
assignment); every non-dictionary payload raises TypeError, which the
except clause of decode_cursor does not list. -/
def jsonSubscript (j : Json) (key : String) : Except PyExc Json :=
  match j with
  | .obj members =>
    match members.reverse.find? (fun kv => kv.1 = key) with
    | some kv => .ok kv.2
    | none => .error (.keyError key)
  | .arr _ => .error (.typeError "list indices must be integers or slices, not str")
  | .str _ => .error (.typeError "string indices must be integers, not str")
  | .num _ => .error (.typeError "int object is not subscriptable")
  | .bool _ => .error (.typeError "bool object is not subscriptable")
  | .null => .error (.typeError "NoneType object is not subscriptable")

/-- Coarse shape check standing for the datetime.fromisoformat grammar:
four digits, dash, two digits, dash, two digits, optionally followed by
more characters.  The verified statements never depend on acceptance of a
particular well-formed date, only on the exception class of each failure
mode. -/
def isoLikeChars : List Char → Bool
  | y1 :: y2 :: y3 :: y4 :: '-' :: m1 :: m2 :: '-' :: d1 :: d2 :: _ =>
    y1.isDigit && y2.isDigit && y3.isDigit && y4.isDigit
      && m1.isDigit && m2.isDigit && d1.isDigit && d2.isDigit
  | _ => false

/-- Model of datetime.fromisoformat(payload of created_at): a non-string
argument raises TypeError (not caught by decode_cursor); an unparseable
string raises ValueError.  The parsed timestamp is kept as its text. -/
def datetimeFromisoformat (j : Json) : Except PyExc String :=
  match j with
  | .str s => if isoLikeChars s.toList then .ok s
              else .error (.valueError "Invalid isoformat string")
  | _ => .error (.typeError "fromisoformat: argument must be str")

/-- Hexadecimal digit test used by the UUID model. -/
def isHexDigit (c : Char) : Bool :=
  c.isDigit || (97 ≤ c.toNat && c.toNat ≤ 102) || (65 ≤ c.toNat && c.toNat ≤ 70)

/-- Model of uuid.UUID(payload of id): a non-string argument raises
AttributeError (hex.replace on a non-string, not caught by
decode_cursor); a string is accepted when, after removing dashes, it is
32 hexadecimal digits, else ValueError. -/
def uuidOf (j : Json) : Except PyExc String :=
  match j with
  | .str s =>
    let hexs := s.toList.filter (fun c => c ≠ '-')
    if (s.toList.all (fun c => isHexDigit c || c = '-'))
        && hexs.length = 32 && hexs.all isHexDigit then
      .ok (String.mk hexs)
    else .error (.valueError "badly formed hexadecimal UUID string")
  | _ => .error (.attributeError "object has no attribute replace")

/-- Body of the try block of decode_cursor (lines 23-29): padding is
appended to a multiple of four, then the stages run in order. -/
def decodeCursorTry (cursor : String) : Except PyExc (String × String) := do
  let padding := List.replicate ((4 - cursor.length % 4) % 4) '='
  let bytes ← urlsafeB64decode (String.mk (cursor.toList ++ padding))
  let raw ← utf8DecodeAscii bytes
  let payload ← jsonLoads raw
  let createdAtJ ← jsonSubscript payload "created_at"
  let createdAt ← datetimeFromisoformat createdAtJ
  let idJ ← jsonSubscript payload "id"
  let appId ← uuidOf idJ
  .ok (createdAt, appId)

/-- Observable outcome of decode_cursor at the service boundary. -/
inductive CursorDecodeOutcome where
  | ok (createdAt id : String)
  | invalidCursor
  | uncaughtExc (e : PyExc)
deriving Repr, BEq

/-- Embedding of decode_cursor (lines 22-31): exceptions listed in the
except tuple become InvalidRequestError of detail "Invalid cursor
value."; any other exception escapes the function. -/
def decode_cursor (cursor : String) : CursorDecodeOutcome :=
  match decodeCursorTry cursor with
  | .ok (c, i) => .ok c i
  | .error e =>
    if e.isCaughtByDecodeCursor then .invalidCursor else .uncaughtExc e

deriving instance DecidableEq for Except

/-! ## Concrete fixtures used by witnesses and counterexamples -/

/-- Timezone table with no entries: every name degrades to UTC. -/
def tzdbEmpty : String → Option Int := fun _ => none

/-- Application row at version 3 used by the version-guard statements. -/
def c1App : ApplicationRow :=
  { id := 10, userId := 1, createdAt := 0, version := 3, fields := [] }

/-- Application row owned by user 2, probed by user 1. -/
def foreignApp : ApplicationRow :=
  { id := 7, userId := 2, createdAt := 0, version := 1, fields := [] }

/-- Reminder row owned by user 2, probed by user 1. -/
def foreignRem : ReminderRow :=
  { id := 8, userId := 2, applicationId := some 7, activityId := none,
    title := "t", dueAt := 0, channels := [some "in_app"], sent := false,
    sentAt := none, dedupeKey := none, meta := [], version := 1 }

/-- Owner with a 22:00 to 06:00 quiet-hours window in a zone resolving to
UTC, as in the engine test fixture. -/
def quietUser : UserRow :=
  { id := 1, email := "quiet@example.com", timezone := some "UTC",
    settings := some { quietHoursStart := some 1320, quietHoursEnd := some 360 } }

/-- Reminder due at minute 1380 (23:00 of day zero). -/
def quietReminder : ReminderRow :=
  { id := 5, userId := 1, applicationId := some 9, activityId := none,
    title := "Late night email", dueAt := 1380, channels := [some "email"],
    sent := false, sentAt := none, dedupeKey := none, meta := [], version := 1 }

/-- Owner without settings, hence without quiet hours. -/
def plainUser : UserRow :=
  { id := 1, email := "engine@example.com", timezone := none, settings := none }

/-- Reminder whose channel list repeats the email tag. -/
def dupChannelReminder : ReminderRow :=
  { id := 6, userId := 1, applicationId := some 9, activityId := none,
    title := "Ping recruiter", dueAt := 100, channels := [some "email", some "email"],
    sent := false, sentAt := none, dedupeKey := none, meta := [], version := 1 }

/-- Creation payload that references neither an application nor an
activity. -/
def bothNonePayload : ReminderPayload :=
  { title := some "orphan", dueAt := some 0 }

/-- Two same-timestamp rows of owner 1 and one row of owner 2, for the
pagination witness. -/
def pagRow1 : ApplicationRow :=
  { id := 1, userId := 1, createdAt := 10, version := 1, fields := [] }

def pagRow2 : ApplicationRow :=
  { id := 2, userId := 1, createdAt := 10, version := 1, fields := [] }

def pagRow3 : ApplicationRow :=
  { id := 3, userId := 1, createdAt := 7, version := 1, fields := [] }

def pagRow4 : ApplicationRow :=
  { id := 4, userId := 2, createdAt := 12, version := 1, fields := [] }

def pagDb : List ApplicationRow := [pagRow1, pagRow2, pagRow3, pagRow4]

/-- Activity row at version 3 for the version-guard witness. -/
def c1Act : ActivityRow :=
  { id := 2, userId := 1, applicationId := 10, version := 3, fields := [] }

/-- Reminder row at version 3 for the version-guard witness. -/
def c1Rem : ReminderRow :=
  { id := 4, userId := 1, applicationId := some 10, activityId := none,
    title := "follow up", dueAt := 50, channels := [some "in_app"], sent := false,
    sentAt := none, dedupeKey := none, meta := [], version := 3 }

/-- Well-formedness of stored quiet-hours bounds: a persisted time of day
is non-negative (the Time column type yields values in a day).  Used as a
decidable hypothesis by the deferral statements. -/
def quietEndNonneg (u : UserRow) : Bool :=
  match u.settings with
  | some s =>
    match s.quietHoursEnd with
    | some qe => 0 ≤ qe
    | none => true
  | none => true

/-- Email hand-offs carried by one scan action. -/
def actionEmails : ScanAction → List EmailTask
  | .skipped => []
  | .deferred _ => []
  | .dispatched _ em => em

/-! # Theorems -/

/-! ## Ownership scoping (claim C6) -/

/-- C6: for every owner id and entity id, a get (and the lookup made by
update and delete) of an entity whose primary key may exist but is not
owned by the caller fails with the same NotFound outcome as a get of a
nonexistent id: the error value depends only on the resource name and the
requested id, so a caller cannot distinguish a foreign row from an absent
one; the third conjunct states the indistinguishability directly by
deleting every row with the probed primary key. -/
theorem claim_C6_owner_mismatch_not_found
    (adb : List ApplicationRow) (rdb : List ReminderRow) (uid aid rid : Nat)
    (ha : ∀ a ∈ adb, a.id = aid → a.userId ≠ uid)
    (hr : ∀ r ∈ rdb, r.id = rid → r.userId ≠ uid) :
    get_application adb uid aid = .error (.notFound "applications" aid)
    ∧ get_reminder rdb uid rid = .error (.notFound "reminders" rid)
    ∧ get_application adb uid aid
        = get_application (adb.filter (fun a => !(a.id = aid))) uid aid
    ∧ (∀ (patch : List (String × Option String)) (tok : Option String) (v : Nat),
        parse_if_match tok = .ok v →
        update_application adb uid aid patch tok
          = .error (.notFound "applications" aid))
    ∧ (∀ (tok : Option String) (v : Nat), parse_if_match tok = .ok v →
        delete_application adb uid aid tok
          = .error (.notFound "applications" aid)) := by
  have hfa : adb.find? (fun r => r.id = aid && r.userId = uid) = none := by
    rw [List.find?_eq_none]
    intro x hx
    simp only [Bool.and_eq_true, decide_eq_true_eq, not_and]
    exact ha x hx
  have hfr : rdb.find? (fun r => r.id = rid && r.userId = uid) = none := by
    rw [List.find?_eq_none]
    intro x hx
    simp only [Bool.and_eq_true, decide_eq_true_eq, not_and]
    exact hr x hx
  have hfa2 : (adb.filter (fun a => !(a.id = aid))).find?
      (fun r => r.id = aid && r.userId = uid) = none := by
    rw [List.find?_eq_none]
    intro x hx
    have hxm := List.of_mem_filter hx
    simp only [Bool.not_eq_true', decide_eq_false_iff_not] at hxm
    simp only [Bool.and_eq_true, decide_eq_true_eq, not_and]
    intro h1
    exact absurd h1 hxm
  refine ⟨?_, ?_, ?_, ?_, ?_⟩
  · simp [get_application, hfa]
  · simp [get_reminder, hfr]
  · simp [get_application, hfa, hfa2]
  · intro patch tok v hp
    simp only [update_application, hp, get_application, hfa]
    rfl
  · intro tok v hp
    simp only [delete_application, hp, get_application, hfa]
    rfl

/-- C6 witness: user 1 probing application 7 and reminder 8, both owned
by user 2. -/
theorem claim_C6_witness :
    get_application [foreignApp] 1 7 = .error (.notFound "applications" 7)
    ∧ get_reminder [foreignRem] 1 8 = .error (.notFound "reminders" 8)
    ∧ get_application [foreignApp] 1 7
        = get_application ([foreignApp].filter (fun a => !(a.id = 7))) 1 7
    ∧ (∀ (patch : List (String × Option String)) (tok : Option String) (v : Nat),
        parse_if_match tok = .ok v →
        update_application [foreignApp] 1 7 patch tok
          = .error (.notFound "applications" 7))
    ∧ (∀ (tok : Option String) (v : Nat), parse_if_match tok = .ok v →
        delete_application [foreignApp] 1 7 tok
          = .error (.notFound "applications" 7)) :=
  claim_C6_owner_mismatch_not_found [foreignApp] [foreignRem] 1 7 8
    (by decide) (by decide)

/-! ## Precondition token failure modes (claim C8) -/

/-- Helper: on a present nonempty token, parse_if_match either succeeds
or fails with one of the two InvalidPrecondition errors. -/
theorem parse_if_match_some_cases (s : String) (hs : s ≠ "") :
    (∃ n, parse_if_match (some s) = .ok n)
    ∨ parse_if_match (some s) = .error invalidPreconditionMalformed
    ∨ parse_if_match (some s) = .error invalidPreconditionNegative := by
  simp only [parse_if_match]
  rw [if_neg hs]
  split
  · exact Or.inr (Or.inl rfl)
  · split
    · exact Or.inr (Or.inr rfl)
    · exact Or.inl ⟨_, rfl⟩

/-- C8: an absent precondition token makes every mutating or deleting
operation fail with PreconditionRequired before any lookup, regardless of
the stored rows, the current version or the existence of the entity
(the databases are arbitrary); the token parser also treats an empty
header value as absent.  A present but malformed token (one the
non-negative-integer grammar rejects) instead fails with
InvalidPrecondition; both failure modes are 400-class and are distinct
error values of the taxonomy. -/
theorem claim_C8_precondition_error_modes
    (s : String) (hs : s ≠ "")
    (adb : List ApplicationRow) (rdb : List ReminderRow) (act : List ActivityRow)
    (uid eid : Nat) (patch : List (String × Option String))
    (rpatch : ReminderPatch) (apatch : List (String × Option String)) :
    update_application adb uid eid patch none = .error preconditionRequired
    ∧ delete_application adb uid eid none = .error preconditionRequired
    ∧ update_reminder rdb uid eid rpatch none = .error preconditionRequired
    ∧ update_activity act uid eid apatch none = .error preconditionRequired
    ∧ preconditionRequired.statusCode = 400
    ∧ parse_if_match (some "") = .error preconditionRequired
    ∧ ((∃ n, parse_if_match (some s) = .ok n)
        ∨ (∃ e, parse_if_match (some s) = .error e ∧ isInvalidPrecondition e = true))
    ∧ (∀ e, parse_if_match (some s) = .error e →
        isInvalidPrecondition e = true ∧ e.statusCode = 400
        ∧ e ≠ preconditionRequired
        ∧ update_application adb uid eid patch (some s) = .error e) := by
  refine ⟨rfl, rfl, rfl, rfl, rfl, rfl, ?_, ?_⟩
  · rcases parse_if_match_some_cases s hs with ⟨n, h⟩ | h | h
    · exact Or.inl ⟨n, h⟩
    · exact Or.inr ⟨_, h, by decide⟩
    · exact Or.inr ⟨_, h, by decide⟩
  · intro e he
    rcases parse_if_match_some_cases s hs with ⟨n, h⟩ | h | h
    · rw [he] at h; exact absurd h (by simp)
    · rw [he] at h
      have : e = invalidPreconditionMalformed := by
        injection h with h2
      subst this
      refine ⟨by decide, rfl, by decide, ?_⟩
      simp only [update_application, he]
      rfl
    · rw [he] at h
      have : e = invalidPreconditionNegative := by
        injection h with h2
      subst this
      refine ⟨by decide, rfl, by decide, ?_⟩
      simp only [update_application, he]
      rfl

/-- C8 witness: the malformed token "abc" on singleton databases. -/
theorem claim_C8_witness :
    update_application [c1App] 1 10 [] none = .error preconditionRequired
    ∧ delete_application [c1App] 1 10 none = .error preconditionRequired
    ∧ update_reminder [foreignRem] 1 8 {} none = .error preconditionRequired
    ∧ update_activity [] 1 2 [] none = .error preconditionRequired
    ∧ preconditionRequired.statusCode = 400
    ∧ parse_if_match (some "") = .error preconditionRequired
    ∧ ((∃ n, parse_if_match (some "abc") = .ok n)
        ∨ (∃ e, parse_if_match (some "abc") = .error e ∧ isInvalidPrecondition e = true))
    ∧ (∀ e, parse_if_match (some "abc") = .error e →
        isInvalidPrecondition e = true ∧ e.statusCode = 400
        ∧ e ≠ preconditionRequired
        ∧ update_application [c1App] 1 10 [] (some "abc") = .error e) :=
  claim_C8_precondition_error_modes "abc" (by decide) [c1App] [foreignRem] [] 1 10 [] {} []

/-! ## Reminder creation constraint (claim C9) -/

/-- C9 counterexample: the claim asserts that create_reminder itself
rejects a payload referencing neither an application nor an activity,
independently of any storage-level constraint.  Running the embedded
create_reminder against a storage that enforces nothing shows the service
body performs no such check: the orphan payload commits successfully, so
the rejection observed in practice comes entirely from the storage
constraint. -/
theorem claim_C9_counterexample :
    create_reminder (fun _ _ => true) [] 1 7 bothNonePayload
      = .ok ([buildReminder 1 7 bothNonePayload], buildReminder 1 7 bothNonePayload)
    ∧ (buildReminder 1 7 bothNonePayload).applicationId = none
    ∧ (buildReminder 1 7 bothNonePayload).activityId = none :=
  ⟨rfl, rfl, rfl⟩

/-- C9 amended: a reminder-creation payload with application_id and
activity_id both absent is rejected with the invalid-request error, but
only through the declared storage check constraint
ck_reminders_application_or_activity whose IntegrityError the service
catches and re-raises; the service layer itself performs no independent
check. -/
theorem claim_C9_amended_storage_constraint_rejects
    (db : List ReminderRow) (uid freshId : Nat) (data : ReminderPayload)
    (h1 : data.applicationId = none) (h2 : data.activityId = none) :
    create_reminder reminderTableConstraints db uid freshId data
      = .error (.invalidRequest "Unable to create reminder with provided data.") := by
  simp [create_reminder, reminderTableConstraints, buildReminder, h1, h2]

/-- C9 witness: the orphan payload against the empty database. -/
theorem claim_C9_witness :
    create_reminder reminderTableConstraints [] 1 7 bothNonePayload
      = .error (.invalidRequest "Unable to create reminder with provided data.") :=
  claim_C9_amended_storage_constraint_rejects [] 1 7 bothNonePayload rfl rfl

/-! ## Cursor decoding robustness (claim C7) -/

/-- C7: the claim that decode_cursor never raises anything but
InvalidCursor fails on the code: the token "W10" (the url-safe base64 of
the bytes of an empty JSON list) decodes and parses successfully, after
which the subscript payload of created_at raises TypeError, which the
except clause (ValueError, KeyError, json.JSONDecodeError) does not
catch, so the exception escapes as a server error.  The spec statement is
the evident intent of that except clause; the missing TypeError is the
code slip. -/
theorem claim_C7_uncaught_type_error_on_json_list :
    decode_cursor "W10"
      = .uncaughtExc (.typeError "list indices must be integers or slices, not str")
    ∧ (PyExc.typeError "list indices must be integers or slices, not str").isCaughtByDecodeCursor
      = false :=
  ⟨rfl, rfl⟩

/-! ## Version guard (claim C1) -/

/-- C1 counterexample: an update whose expected version matches but whose
patch is empty succeeds while leaving the stored version unchanged, so
the unconditional "succeeds and yields version = current_version + 1"
fails on the code (the update loop and the version increment are guarded
by the truthiness of update_data). -/
theorem claim_C1_counterexample_empty_patch :
    update_application [c1App] 1 10 [] (some "3") = .ok ([c1App], c1App)
    ∧ c1App.version = 3
    ∧ c1App.version ≠ c1App.version + 1 :=
  ⟨by decide, rfl, by decide⟩

/-- Helper: bind on a successful Except result. -/
theorem except_bind_ok {ε α β : Type} (a : α) (f : α → Except ε β) :
    (Except.ok a : Except ε α) >>= f = f a := rfl

/-- C1 amended: for each entity kind (application, activity, reminder)
and precondition token parsing to expected: when expected equals the
stored version, the update succeeds, and with a non-empty patch the
committed row carries version = current + 1 together with the patched
fields (an empty patch succeeds without touching the row, the source
increments only under the truthiness guard on update_data); when expected
differs from the stored version, the update fails with VersionConflict
carrying the current version in the error metadata, and the error return
carries no committed rows, leaving the stored version and fields
unchanged. -/
theorem claim_C1_amended_version_guard
    (adb : List ApplicationRow) (uid aid : Nat) (a : ApplicationRow)
    (tok : Option String) (expected : Nat)
    (hparse : parse_if_match tok = .ok expected)
    (hgeta : get_application adb uid aid = .ok a)
    (patch : List (String × Option String))
    (cdb : List ActivityRow) (cid : Nat) (c : ActivityRow)
    (hgetc : get_activity cdb uid cid = .ok c)
    (cpatch : List (String × Option String))
    (rdb : List ReminderRow) (rid : Nat) (r : ReminderRow)
    (hgetr : get_reminder rdb uid rid = .ok r)
    (rpatch : ReminderPatch) :
    (expected = a.version → patch ≠ [] →
      update_application adb uid aid patch tok
        = .ok (adb.map (fun x => if x.id = aid && x.userId = uid then
                 { a with fields := applyPatch a.fields patch,
                          version := a.version + 1 } else x),
               { a with fields := applyPatch a.fields patch,
                        version := a.version + 1 }))
    ∧ (expected = a.version → patch = [] →
        update_application adb uid aid patch tok = .ok (adb, a))
    ∧ (expected ≠ a.version →
        update_application adb uid aid patch tok
          = .error (.versionConflict "applications" aid a.version))
    ∧ (expected = c.version → cpatch ≠ [] →
      update_activity cdb uid cid cpatch tok
        = .ok (cdb.map (fun x => if x.id = cid && x.userId = uid then
                 { c with fields := applyPatch c.fields cpatch,
                          version := c.version + 1 } else x),
               { c with fields := applyPatch c.fields cpatch,
                        version := c.version + 1 }))
    ∧ (expected = c.version → cpatch = [] →
        update_activity cdb uid cid cpatch tok = .ok (cdb, c))
    ∧ (expected ≠ c.version →
        update_activity cdb uid cid cpatch tok
          = .error (.versionConflict "activities" cid c.version))
    ∧ (expected = r.version → rpatch.isEmpty = false →
      update_reminder rdb uid rid rpatch tok
        = .ok (rdb.map (fun x => if x.id = rid && x.userId = uid then
                 { rpatch.applyTo r with version := r.version + 1 } else x),
               { rpatch.applyTo r with version := r.version + 1 }))
    ∧ (expected = r.version → rpatch.isEmpty = true →
        update_reminder rdb uid rid rpatch tok = .ok (rdb, r))
    ∧ (expected ≠ r.version →
        update_reminder rdb uid rid rpatch tok
          = .error (.versionConflict "reminders" rid r.version)) := by
  refine ⟨?_, ?_, ?_, ?_, ?_, ?_, ?_, ?_, ?_⟩
  · intro h1 h2
    simp [update_application, hparse, hgeta, except_bind_ok, h1, h2]
  · intro h1 h2
    simp [update_application, hparse, hgeta, except_bind_ok, h1, h2]
  · intro h1
    have hne : a.version ≠ expected := fun hh => h1 hh.symm
    simp [update_application, hparse, hgeta, except_bind_ok, hne]
  · intro h1 h2
    simp [update_activity, hparse, hgetc, except_bind_ok, h1, h2]
  · intro h1 h2
    simp [update_activity, hparse, hgetc, except_bind_ok, h1, h2]
  · intro h1
    have hne : c.version ≠ expected := fun hh => h1 hh.symm
    simp [update_activity, hparse, hgetc, except_bind_ok, hne]
  · intro h1 h2
    simp [update_reminder, hparse, hgetr, except_bind_ok, h1, h2]
  · intro h1 h2
    simp [update_reminder, hparse, hgetr, except_bind_ok, h1, h2]
  · intro h1
    have hne : r.version ≠ expected := fun hh => h1 hh.symm
    simp [update_reminder, hparse, hgetr, except_bind_ok, hne]

/-- C1 witness: token W/"3" against rows at version 3 of each entity
kind. -/
theorem claim_C1_witness :
    ((3 : Nat) = c1App.version → [("company", some "X")] ≠ [] →
      update_application [c1App] 1 10 [("company", some "X")] (some "W/\"3\"")
        = .ok ([c1App].map (fun x => if x.id = 10 && x.userId = 1 then
                 { c1App with fields := applyPatch c1App.fields [("company", some "X")],
                              version := c1App.version + 1 } else x),
               { c1App with fields := applyPatch c1App.fields [("company", some "X")],
                            version := c1App.version + 1 }))
    ∧ ((3 : Nat) = c1App.version → [("company", some "X")] = [] →
        update_application [c1App] 1 10 [("company", some "X")] (some "W/\"3\"")
          = .ok ([c1App], c1App))
    ∧ ((3 : Nat) ≠ c1App.version →
        update_application [c1App] 1 10 [("company", some "X")] (some "W/\"3\"")
          = .error (.versionConflict "applications" 10 c1App.version))
    ∧ ((3 : Nat) = c1Act.version → [("outcome", some "done")] ≠ [] →
      update_activity [c1Act] 1 2 [("outcome", some "done")] (some "W/\"3\"")
        = .ok ([c1Act].map (fun x => if x.id = 2 && x.userId = 1 then
                 { c1Act with fields := applyPatch c1Act.fields [("outcome", some "done")],
                              version := c1Act.version + 1 } else x),
               { c1Act with fields := applyPatch c1Act.fields [("outcome", some "done")],
                            version := c1Act.version + 1 }))
    ∧ ((3 : Nat) = c1Act.version → [("outcome", some "done")] = [] →
        update_activity [c1Act] 1 2 [("outcome", some "done")] (some "W/\"3\"")
          = .ok ([c1Act], c1Act))
    ∧ ((3 : Nat) ≠ c1Act.version →
        update_activity [c1Act] 1 2 [("outcome", some "done")] (some "W/\"3\"")
          = .error (.versionConflict "activities" 2 c1Act.version))
    ∧ ((3 : Nat) = c1Rem.version →
        (ReminderPatch.isEmpty { title := some "new" }) = false →
      update_reminder [c1Rem] 1 4 { title := some "new" } (some "W/\"3\"")
        = .ok ([c1Rem].map (fun x => if x.id = 4 && x.userId = 1 then
                 { ReminderPatch.applyTo { title := some "new" } c1Rem with
                     version := c1Rem.version + 1 } else x),
               { ReminderPatch.applyTo { title := some "new" } c1Rem with
                   version := c1Rem.version + 1 }))
    ∧ ((3 : Nat) = c1Rem.version →
        (ReminderPatch.isEmpty { title := some "new" }) = true →
        update_reminder [c1Rem] 1 4 { title := some "new" } (some "W/\"3\"")
          = .ok ([c1Rem], c1Rem))
    ∧ ((3 : Nat) ≠ c1Rem.version →
        update_reminder [c1Rem] 1 4 { title := some "new" } (some "W/\"3\"")
          = .error (.versionConflict "reminders" 4 c1Rem.version)) :=
  claim_C1_amended_version_guard [c1App] 1 10 c1App (some "W/\"3\"") 3
    (by decide) (by decide) [("company", some "X")]
    [c1Act] 2 c1Act (by decide) [("outcome", some "done")]
    [c1Rem] 4 c1Rem (by decide) { title := some "new" }

/-! ## Reminder engine lemmas (claims C10, C3, C4, C5) -/

/-- Helper: a deferral instant computed by the quiet-hours logic is
strictly later than the reference time, provided the stored window end is
a non-negative time of day. -/
theorem next_allowed_send_time_gt
    (tzdb : String → Option Int) (u : UserRow) (now d : Int)
    (hq : quietEndNonneg u = true)
    (h : next_allowed_send_time tzdb u now = some d) : now < d := by
  cases hs : u.settings with
  | none => simp [next_allowed_send_time, hs] at h
  | some s =>
    cases hst : s.quietHoursStart with
    | none => simp [next_allowed_send_time, hs, hst] at h
    | some start =>
      cases hen : s.quietHoursEnd with
      | none => simp [next_allowed_send_time, hs, hst, hen] at h
      | some e =>
        have he0 : (0 : Int) ≤ e := by
          have hq2 := hq
          simp only [quietEndNonneg, hs, hen, decide_eq_true_eq] at hq2
          exact hq2
        simp only [next_allowed_send_time, hs, hst, hen] at h
        set off := resolve_timezone tzdb u.timezone with hoff
        split at h
        · simp at h
        · split at h
          · simp at h
          · have hd := Option.some.inj h
            split at hd <;> omega

/-- Helper: the row written back by the scan for a reminder keeps its
primary key. -/
theorem scan_update_id (tzdb : String → Option Int) (users : List UserRow)
    (now : Int) (r y : ReminderRow)
    (h : scan_update tzdb users now r = some y) : y.id = r.id := by
  unfold scan_update scan_reminder at h
  cases hf : users.find? (fun u => u.id = r.userId) with
  | none =>
    simp only [hf] at h
    exact absurd h (by simp)
  | some u =>
    simp only [hf] at h
    cases hn : next_allowed_send_time tzdb u now with
    | none =>
      simp only [hn, dispatchAction] at h
      have := Option.some.inj h
      subst this
      rfl
    | some d =>
      simp only [hn] at h
      by_cases hc : now < d
      · rw [if_pos hc] at h
        have := Option.some.inj h
        subst this
        rfl
      · rw [if_neg hc] at h
        simp only [dispatchAction] at h
        have := Option.some.inj h
        subst this
        rfl

/-- C10: whenever the quiet-hours computation returns a deferral instant,
that instant is strictly later than the reference time (given the stored
window end is a valid non-negative time of day); consequently a deferral
step moves due_at strictly into the future without touching sent, so the
deferred row can no longer be selected by the candidate query
(due_at <= now, sent = false) at the same reference time. -/
theorem claim_C10_deferral_strictly_future
    (tzdb : String → Option Int) (users : List UserRow) (now : Int)
    (hwf : ∀ u ∈ users, quietEndNonneg u = true) :
    (∀ u ∈ users, ∀ d, next_allowed_send_time tzdb u now = some d → now < d)
    ∧ (∀ r r1, scan_reminder tzdb users now r = .deferred r1 →
        now < r1.dueAt ∧ r1.sent = r.sent
        ∧ ∀ db : List ReminderRow, r1 ∉ get_due_reminders db now) := by
  constructor
  · intro u hu d h
    exact next_allowed_send_time_gt tzdb u now d (hwf u hu) h
  · intro r r1 h
    unfold scan_reminder at h
    cases hf : users.find? (fun u => u.id = r.userId) with
    | none =>
      simp only [hf] at h
      exact absurd h (by simp)
    | some u =>
      simp only [hf] at h
      cases hn : next_allowed_send_time tzdb u now with
      | none =>
        simp only [hn, dispatchAction] at h
        exact absurd h (by simp)
      | some d =>
        simp only [hn] at h
        by_cases hc : now < d
        · rw [if_pos hc] at h
          have h2 := ScanAction.deferred.inj h
          subst h2
          refine ⟨by simpa using hc, rfl, ?_⟩
          intro db hmem
          have hm := (List.mem_filter.mp hmem).2
          simp only [Bool.and_eq_true, decide_eq_true_eq] at hm
          have : d ≤ now := by simpa using hm.1
          omega
        · rw [if_neg hc] at h
          simp only [dispatchAction] at h
          exact absurd h (by simp)

/-- C10 witness: the quiet-hours owner at reference minute 1380 (23:00
local with a 22:00 to 06:00 window). -/
theorem claim_C10_witness :
    ((∀ u ∈ [quietUser], ∀ d,
        next_allowed_send_time tzdbEmpty u 1380 = some d → (1380 : Int) < d)
    ∧ (∀ r r1, scan_reminder tzdbEmpty [quietUser] 1380 r = .deferred r1 →
        (1380 : Int) < r1.dueAt ∧ r1.sent = r.sent
        ∧ ∀ db : List ReminderRow, r1 ∉ get_due_reminders db 1380)) :=
  claim_C10_deferral_strictly_future tzdbEmpty [quietUser] 1380 (by decide)

/-- Helper: the rows written back by a batch are the per-reminder scan
updates in batch order. -/
theorem scan_batch_updates (tzdb : String → Option Int) (users : List UserRow)
    (now : Int) (batch : List ReminderRow) :
    (scan_batch tzdb users now batch).1
      = batch.filterMap (scan_update tzdb users now) := by
  induction batch with
  | nil => rfl
  | cons r rest ih =>
    unfold scan_batch
    cases hsr : scan_reminder tzdb users now r with
    | skipped =>
      have hsu : scan_update tzdb users now r = none := by simp [scan_update, hsr]
      rw [List.filterMap_cons_none hsu]
      exact ih
    | deferred r1 =>
      have hsu : scan_update tzdb users now r = some r1 := by simp [scan_update, hsr]
      rw [List.filterMap_cons_some hsu]
      rcases ht : scan_batch tzdb users now rest with ⟨u2, s2, d2, e2⟩
      rw [ht] at ih
      simp only [ht]
      simpa using ih
    | dispatched r1 em =>
      have hsu : scan_update tzdb users now r = some r1 := by simp [scan_update, hsr]
      rw [List.filterMap_cons_some hsu]
      rcases ht : scan_batch tzdb users now rest with ⟨u2, s2, d2, e2⟩
      rw [ht] at ih
      simp only [ht]
      simpa using ih

/-- Helper: the email hand-offs of a batch are the per-reminder hand-offs
in batch order. -/
theorem scan_batch_emails (tzdb : String → Option Int) (users : List UserRow)
    (now : Int) (batch : List ReminderRow) :
    (scan_batch tzdb users now batch).2.2.2
      = batch.flatMap (fun r => actionEmails (scan_reminder tzdb users now r)) := by
  induction batch with
  | nil => rfl
  | cons r rest ih =>
    unfold scan_batch
    cases hsr : scan_reminder tzdb users now r with
    | skipped => simpa [List.flatMap_cons, actionEmails, hsr] using ih
    | deferred r1 =>
      rcases ht : scan_batch tzdb users now rest with ⟨u2, s2, d2, e2⟩
      rw [ht] at ih
      simpa [List.flatMap_cons, actionEmails, hsr] using ih
    | dispatched r1 em =>
      rcases ht : scan_batch tzdb users now rest with ⟨u2, s2, d2, e2⟩
      rw [ht] at ih
      simpa [List.flatMap_cons, actionEmails, hsr] using ih

/-- Helper: writing back updates keeps each row's primary key. -/
theorem getD_update_id (upds : List ReminderRow) (x : ReminderRow) :
    ((upds.find? (fun u => u.id = x.id)).getD x).id = x.id := by
  cases hf : upds.find? (fun u => u.id = x.id) with
  | none => rfl
  | some u =>
    have := List.find?_some hf
    simpa using this

/-- Helper: looking a primary key up after the commit returns the stored
row passed through the update map. -/
theorem find?_applyUpdates (db upds : List ReminderRow) (t : Nat) :
    (applyUpdates db upds).find? (fun x => x.id = t)
      = (db.find? (fun x => x.id = t)).map
          (fun x => (upds.find? (fun u => u.id = x.id)).getD x) := by
  induction db with
  | nil => rfl
  | cons r rest ih =>
    unfold applyUpdates at ih ⊢
    by_cases hp : r.id = t
    · subst hp
      rw [List.map_cons,
        List.find?_cons_of_pos _ (by simpa using getD_update_id upds r),
        List.find?_cons_of_pos _ (by simp)]
      simp
    · rw [List.map_cons,
        List.find?_cons_of_neg _ (by simp [getD_update_id, hp]),
        List.find?_cons_of_neg _ (by simpa using hp)]
      exact ih

/-- Helper: in a table with distinct primary keys, looking up the key of
a member returns that member. -/
theorem find?_id_of_mem (db : List ReminderRow) (r : ReminderRow) (t : Nat)
    (hmem : r ∈ db) (hn : (db.map ReminderRow.id).Nodup) (hid : r.id = t) :
    db.find? (fun x => x.id = t) = some r := by
  subst hid
  induction db with
  | nil => cases hmem
  | cons a rest ih =>
    rw [List.map_cons, List.nodup_cons] at hn
    rcases List.mem_cons.mp hmem with h | h
    · subst h
      rw [List.find?_cons_of_pos]
      simp
    · have hne : a.id ≠ r.id := by
        intro he
        exact hn.1 (he ▸ List.mem_map_of_mem ReminderRow.id h)
      rw [List.find?_cons_of_neg]
      · exact ih h hn.2
      · simpa using hne

/-- Helper: the update list contains exactly one row for a processed
batch member with distinct keys, namely its scan update. -/
theorem find?_filterMap_scan (tzdb : String → Option Int) (users : List UserRow)
    (now : Int) (batch : List ReminderRow) (r r1 : ReminderRow)
    (hmem : r ∈ batch) (hn : (batch.map ReminderRow.id).Nodup)
    (hsu : scan_update tzdb users now r = some r1) :
    (batch.filterMap (scan_update tzdb users now)).find? (fun x => x.id = r.id)
      = some r1 := by
  induction batch with
  | nil => cases hmem
  | cons a rest ih =>
    rw [List.map_cons, List.nodup_cons] at hn
    rcases List.mem_cons.mp hmem with h | h
    · subst h
      rw [List.filterMap_cons_some hsu,
        List.find?_cons_of_pos _ (by simp [scan_update_id tzdb users now r r1 hsu])]
    · have hne : a.id ≠ r.id := by
        intro he
        exact hn.1 (he ▸ List.mem_map_of_mem ReminderRow.id h)
      cases hsa : scan_update tzdb users now a with
      | none =>
        rw [List.filterMap_cons_none hsa]
        exact ih h hn.2
      | some y =>
        rw [List.filterMap_cons_some hsa,
          List.find?_cons_of_neg _ (by simp [scan_update_id tzdb users now a y hsa, hne])]
        exact ih h hn.2

/-- Helper: no update is written for a key outside the batch. -/
theorem find?_filterMap_scan_none (tzdb : String → Option Int)
    (users : List UserRow) (now : Int) (batch : List ReminderRow) (t : Nat)
    (h : ∀ x ∈ batch, x.id ≠ t) :
    (batch.filterMap (scan_update tzdb users now)).find? (fun x => x.id = t)
      = none := by
  rw [List.find?_eq_none]
  intro y hy
  rcases List.mem_filterMap.mp hy with ⟨x, hx, hxy⟩
  have hid := scan_update_id tzdb users now x y hxy
  simp only [decide_eq_true_eq]
  rw [hid]
  exact h x hx

/-- Helper: the commit preserves the stored primary keys. -/
theorem applyUpdates_map_id (db upds : List ReminderRow) :
    (applyUpdates db upds).map ReminderRow.id = db.map ReminderRow.id := by
  unfold applyUpdates
  rw [List.map_map]
  apply List.map_congr_left
  intro x _
  exact getD_update_id upds x

/-- Helper: the fetched batch is a sublist of the stored rows. -/
theorem scanBatchOf_sublist (batchSize : Int) (db : List ReminderRow)
    (now : Int) : (scanBatchOf batchSize db now).Sublist db := by
  unfold scanBatchOf get_due_reminders
  split
  · exact (List.take_sublist _ _).trans (List.filter_sublist _)
  · exact List.filter_sublist _

/-- Helper: distinct stored keys stay distinct in the fetched batch. -/
theorem scanBatchOf_nodup (batchSize : Int) (db : List ReminderRow)
    (now : Int) (hn : (db.map ReminderRow.id).Nodup) :
    ((scanBatchOf batchSize db now).map ReminderRow.id).Nodup :=
  hn.sublist ((scanBatchOf_sublist batchSize db now).map ReminderRow.id)

/-- Helper: the committed rows of one scan are the stored rows with the
per-reminder updates of the fetched batch written back. -/
theorem process_due_reminders_fst (tzdb : String → Option Int) (batchSize : Int)
    (users : List UserRow) (db : List ReminderRow) (now : Int) :
    (process_due_reminders tzdb batchSize users db now).1
      = applyUpdates db
          ((scanBatchOf batchSize db now).filterMap (scan_update tzdb users now)) := by
  unfold process_due_reminders
  have hupd := scan_batch_updates tzdb users now (scanBatchOf batchSize db now)
  rcases ht : scan_batch tzdb users now (scanBatchOf batchSize db now)
    with ⟨u2, s2, d2, e2⟩
  rw [ht] at hupd
  simp only [ht]
  simpa using congrArg (applyUpdates db) hupd

/-- C3: a candidate reminder of the scan whose owner has a quiet-hours
window with start distinct from end, when the reference time falls inside
the window in owner-local time (same-day range for start < end, wrapping
past midnight otherwise), is deferred: the computation yields the next
local window-end instant strictly after now, rolled forward one day when
the naive combination of the local date with the end time is not after
now, converted back from the owner offset; the committed row carries that
instant as due_at and version + 1, with sent untouched.  A window with
start = end never defers. -/
theorem claim_C3_quiet_hours_deferral
    (tzdb : String → Option Int) (users : List UserRow) (db : List ReminderRow)
    (batchSize : Int) (now : Int) (r : ReminderRow) (u : UserRow)
    (s : UserSettingsRow) (qs qe : Int)
    (hids : (db.map ReminderRow.id).Nodup)
    (hbatch : r ∈ scanBatchOf batchSize db now)
    (hfind : users.find? (fun x => x.id = r.userId) = some u)
    (hset : u.settings = some s)
    (hqs : s.quietHoursStart = some qs) (hqe : s.quietHoursEnd = some qe)
    (hqe0 : 0 ≤ qe) (hne : qs ≠ qe)
    (hin : is_within_quiet_hours ((now + resolve_timezone tzdb u.timezone) % 1440)
             qs qe = true) :
    next_allowed_send_time tzdb u now
      = some ((if ((now + resolve_timezone tzdb u.timezone) / 1440) * 1440 + qe
                  ≤ now + resolve_timezone tzdb u.timezone
               then ((now + resolve_timezone tzdb u.timezone) / 1440) * 1440 + qe + 1440
               else ((now + resolve_timezone tzdb u.timezone) / 1440) * 1440 + qe)
              - resolve_timezone tzdb u.timezone)
    ∧ (∀ d, next_allowed_send_time tzdb u now = some d →
        now < d
        ∧ (process_due_reminders tzdb batchSize users db now).1.find?
            (fun x => x.id = r.id)
            = some { r with dueAt := d, version := r.version + 1 }
        ∧ ({ r with dueAt := d, version := r.version + 1 } : ReminderRow).sent
            = r.sent)
    ∧ (∀ (u2 : UserRow) (s2 : UserSettingsRow) (t : Int),
        u2.settings = some s2 → s2.quietHoursStart = some t →
        s2.quietHoursEnd = some t → next_allowed_send_time tzdb u2 now = none) := by
  have hq : quietEndNonneg u = true := by
    simp [quietEndNonneg, hset, hqe, hqe0]
  have hnext : next_allowed_send_time tzdb u now
      = some ((if ((now + resolve_timezone tzdb u.timezone) / 1440) * 1440 + qe
                  ≤ now + resolve_timezone tzdb u.timezone
               then ((now + resolve_timezone tzdb u.timezone) / 1440) * 1440 + qe + 1440
               else ((now + resolve_timezone tzdb u.timezone) / 1440) * 1440 + qe)
              - resolve_timezone tzdb u.timezone) := by
    simp only [next_allowed_send_time, hset, hqs, hqe]
    rw [if_neg hne]
    rw [if_neg (by simp [hin])]
  refine ⟨hnext, ?_, ?_⟩
  · intro d hd
    have hlt : now < d := next_allowed_send_time_gt tzdb u now d hq hd
    have hsu : scan_update tzdb users now r
        = some { r with dueAt := d, version := r.version + 1 } := by
      unfold scan_update scan_reminder
      simp only [hfind, hd]
      rw [if_pos hlt]
    refine ⟨hlt, ?_, rfl⟩
    rw [process_due_reminders_fst, find?_applyUpdates]
    have hmemdb : r ∈ db := (scanBatchOf_sublist batchSize db now).subset hbatch
    rw [find?_id_of_mem db r r.id hmemdb hids rfl]
    simp only [Option.map_some']
    rw [find?_filterMap_scan tzdb users now _ r _ hbatch
      (scanBatchOf_nodup batchSize db now hids) hsu]
    rfl
  · intro u2 s2 t h1 h2 h3
    simp [next_allowed_send_time, h1, h2, h3]

/-- C3 witness: the 22:00 to 06:00 owner with a reminder due at local
23:00 (minute 1380), matching the engine test fixture. -/
theorem claim_C3_witness :
    next_allowed_send_time tzdbEmpty quietUser 1380
      = some ((if ((1380 + resolve_timezone tzdbEmpty quietUser.timezone) / 1440) * 1440 + 360
                  ≤ 1380 + resolve_timezone tzdbEmpty quietUser.timezone
               then ((1380 + resolve_timezone tzdbEmpty quietUser.timezone) / 1440) * 1440 + 360 + 1440
               else ((1380 + resolve_timezone tzdbEmpty quietUser.timezone) / 1440) * 1440 + 360)
              - resolve_timezone tzdbEmpty quietUser.timezone)
    ∧ (∀ d, next_allowed_send_time tzdbEmpty quietUser 1380 = some d →
        (1380 : Int) < d
        ∧ (process_due_reminders tzdbEmpty 100 [quietUser] [quietReminder] 1380).1.find?
            (fun x => x.id = quietReminder.id)
            = some { quietReminder with dueAt := d, version := quietReminder.version + 1 }
        ∧ (({ quietReminder with dueAt := d, version := quietReminder.version + 1 } : ReminderRow)).sent
            = quietReminder.sent)
    ∧ (∀ (u2 : UserRow) (s2 : UserSettingsRow) (t : Int),
        u2.settings = some s2 → s2.quietHoursStart = some t →
        s2.quietHoursEnd = some t →
        next_allowed_send_time tzdbEmpty u2 1380 = none) :=
  claim_C3_quiet_hours_deferral tzdbEmpty [quietUser] [quietReminder] 100 1380
    quietReminder quietUser
    { quietHoursStart := some 1320, quietHoursEnd := some 360 } 1320 360
    (by decide) (by decide) (by decide) rfl rfl rfl (by decide) (by decide)
    (by decide)

/-- Helper: the email hand-offs of one scan are the per-reminder action
hand-offs over the fetched batch. -/
theorem process_due_reminders_emails (tzdb : String → Option Int)
    (batchSize : Int) (users : List UserRow) (db : List ReminderRow)
    (now : Int) :
    (process_due_reminders tzdb batchSize users db now).2.2
      = (scanBatchOf batchSize db now).flatMap
          (fun x => actionEmails (scan_reminder tzdb users now x)) := by
  unfold process_due_reminders
  have hem := scan_batch_emails tzdb users now (scanBatchOf batchSize db now)
  rcases ht : scan_batch tzdb users now (scanBatchOf batchSize db now)
    with ⟨u2, s2, d2, e2⟩
  rw [ht] at hem
  simp only [ht]
  simpa using hem

/-- C4 counterexample: the dispatched-channel tags recorded in the
reminder metadata are not a deduplicated set: a channel list repeating
the email tag is recorded with the duplicate preserved, because
_parse_channels appends every recognized element in order. -/
theorem claim_C4_counterexample_duplicate_tags :
    metaGet ((dispatch_reminder dupChannelReminder (some plainUser) 0).1.meta)
        "dispatched_channels" = some (.tags ["email", "email"])
    ∧ ¬ (["email", "email"] : List String).Nodup :=
  ⟨by decide, by decide⟩

/-- C4 amended: a candidate reminder the scan dispatches (owner resolved,
quiet-hours computation yielding no instant later than now) has the
channel dispatcher invoked over its parsed channel list, kept in order
with duplicates preserved, where None elements and unrecognized tags are
dropped and an empty or fully unparseable list defaults to the in_app
singleton; the committed row records the dispatched tags and the dispatch
instant in its metadata and carries sent = true, sent_at = now and
version + 1; exactly one email hand-off to the owner's address with the
reminder title as subject is made when the email tag is among the
dispatched values. -/
theorem claim_C4_amended_dispatch
    (tzdb : String → Option Int) (users : List UserRow) (db : List ReminderRow)
    (batchSize : Int) (now : Int) (r : ReminderRow) (u : UserRow)
    (hids : (db.map ReminderRow.id).Nodup)
    (hbatch : r ∈ scanBatchOf batchSize db now)
    (hfind : users.find? (fun x => x.id = r.userId) = some u)
    (hnd : ∀ d, next_allowed_send_time tzdb u now = some d → d ≤ now) :
    (process_due_reminders tzdb batchSize users db now).1.find?
        (fun x => x.id = r.id)
      = some { r with
          meta := metaSet
            (metaSet r.meta "dispatched_channels"
              (.tags ((parse_channels r.channels).map ReminderChannel.value)))
            "dispatched_at" (.s (isoOfInstant now)),
          sent := true, sentAt := some now, version := r.version + 1 }
    ∧ (dispatch_reminder r (some u) now).2
      = (if ((parse_channels r.channels).map ReminderChannel.value).contains "email"
         then [{ recipients := [u.email], subject := r.title,
                 templateName := "reminder_email.html", bodyTitle := r.title,
                 bodyBody := (metaGetString
                     (metaSet
                       (metaSet r.meta "dispatched_channels"
                         (.tags ((parse_channels r.channels).map ReminderChannel.value)))
                       "dispatched_at" (.s (isoOfInstant now))) "body").getD
                   ("Reminder: " ++ r.title ++ ". Due at " ++ isoOfInstant r.dueAt),
                 actionUrl := metaGetString
                     (metaSet
                       (metaSet r.meta "dispatched_channels"
                         (.tags ((parse_channels r.channels).map ReminderChannel.value)))
                       "dispatched_at" (.s (isoOfInstant now))) "action_url" }]
         else [])
    ∧ (∀ em ∈ (dispatch_reminder r (some u) now).2,
        em ∈ (process_due_reminders tzdb batchSize users db now).2.2)
    ∧ parse_channels [] = [.in_app]
    ∧ (∀ t : String, ReminderChannel.ofTag t = none →
        parse_channels [some t] = [.in_app]) := by
  have hsu : scan_update tzdb users now r
      = some { r with
          meta := metaSet
            (metaSet r.meta "dispatched_channels"
              (.tags ((parse_channels r.channels).map ReminderChannel.value)))
            "dispatched_at" (.s (isoOfInstant now)),
          sent := true, sentAt := some now, version := r.version + 1 } := by
    unfold scan_update scan_reminder
    simp only [hfind]
    cases hn2 : next_allowed_send_time tzdb u now with
    | none => rfl
    | some d =>
      dsimp only
      rw [if_neg (not_lt.mpr (hnd d hn2))]
      rfl
  have hact : scan_reminder tzdb users now r
      = dispatchAction r u now := by
    unfold scan_reminder
    simp only [hfind]
    cases hn2 : next_allowed_send_time tzdb u now with
    | none => rfl
    | some d =>
      dsimp only
      rw [if_neg (not_lt.mpr (hnd d hn2))]
  refine ⟨?_, rfl, ?_, rfl, ?_⟩
  · rw [process_due_reminders_fst, find?_applyUpdates]
    have hmemdb : r ∈ db := (scanBatchOf_sublist batchSize db now).subset hbatch
    rw [find?_id_of_mem db r r.id hmemdb hids rfl]
    simp only [Option.map_some']
    rw [find?_filterMap_scan tzdb users now _ r _ hbatch
      (scanBatchOf_nodup batchSize db now hids) hsu]
    rfl
  · intro em hem
    rw [process_due_reminders_emails]
    refine List.mem_flatMap.mpr ⟨r, hbatch, ?_⟩
    rw [hact]
    exact hem
  · intro t ht
    simp [parse_channels, ht]

/-- C4 witness: the duplicate-email reminder dispatched at minute 100 by
the owner without quiet hours. -/
theorem claim_C4_witness :
    (process_due_reminders tzdbEmpty 100 [plainUser] [dupChannelReminder] 100).1.find?
        (fun x => x.id = dupChannelReminder.id)
      = some { dupChannelReminder with
          meta := metaSet
            (metaSet dupChannelReminder.meta "dispatched_channels"
              (.tags ((parse_channels dupChannelReminder.channels).map ReminderChannel.value)))
            "dispatched_at" (.s (isoOfInstant 100)),
          sent := true, sentAt := some 100, version := dupChannelReminder.version + 1 }
    ∧ (dispatch_reminder dupChannelReminder (some plainUser) 100).2
      = (if ((parse_channels dupChannelReminder.channels).map ReminderChannel.value).contains "email"
         then [{ recipients := [plainUser.email], subject := dupChannelReminder.title,
                 templateName := "reminder_email.html", bodyTitle := dupChannelReminder.title,
                 bodyBody := (metaGetString
                     (metaSet
                       (metaSet dupChannelReminder.meta "dispatched_channels"
                         (.tags ((parse_channels dupChannelReminder.channels).map ReminderChannel.value)))
                       "dispatched_at" (.s (isoOfInstant 100))) "body").getD
                   ("Reminder: " ++ dupChannelReminder.title ++ ". Due at "
                     ++ isoOfInstant dupChannelReminder.dueAt),
                 actionUrl := metaGetString
                     (metaSet
                       (metaSet dupChannelReminder.meta "dispatched_channels"
                         (.tags ((parse_channels dupChannelReminder.channels).map ReminderChannel.value)))
                       "dispatched_at" (.s (isoOfInstant 100))) "action_url" }]
         else [])
    ∧ (∀ em ∈ (dispatch_reminder dupChannelReminder (some plainUser) 100).2,
        em ∈ (process_due_reminders tzdbEmpty 100 [plainUser] [dupChannelReminder] 100).2.2)
    ∧ parse_channels [] = [.in_app]
    ∧ (∀ t : String, ReminderChannel.ofTag t = none →
        parse_channels [some t] = [.in_app]) :=
  claim_C4_amended_dispatch tzdbEmpty [plainUser] [dupChannelReminder] 100 100
    dupChannelReminder plainUser (by decide) (by decide) (by decide)
    (fun d h => by simp [next_allowed_send_time, plainUser] at h)

/-- C5: a due unsent reminder whose owner has no quiet-hours window is
dispatched by one scan (the committed row has sent = true and
sent_at = now), and a second scan at any later reference time leaves that
row exactly as the first scan committed it, because the candidate query
requires sent = false. -/
theorem claim_C5_scan_idempotent
    (tzdb : String → Option Int) (batchSize : Int) (users : List UserRow)
    (db : List ReminderRow) (now now2 : Int) (r : ReminderRow) (u : UserRow)
    (hids : (db.map ReminderRow.id).Nodup)
    (hbatch : r ∈ scanBatchOf batchSize db now)
    (hfind : users.find? (fun x => x.id = r.userId) = some u)
    (hnq : u.settings = none
        ∨ ∃ s, u.settings = some s
            ∧ (s.quietHoursStart = none ∨ s.quietHoursEnd = none))
    (hlater : now ≤ now2) :
    ∃ r1, (process_due_reminders tzdb batchSize users db now).1.find?
        (fun x => x.id = r.id) = some r1
      ∧ r1.sent = true ∧ r1.sentAt = some now ∧ r1.id = r.id
      ∧ (process_due_reminders tzdb batchSize users
           (process_due_reminders tzdb batchSize users db now).1 now2).1.find?
           (fun x => x.id = r.id) = some r1 := by
  have hnone : next_allowed_send_time tzdb u now = none := by
    rcases hnq with h | ⟨s, hs, h1 | h1⟩
    · simp [next_allowed_send_time, h]
    · simp [next_allowed_send_time, hs, h1]
    · cases h2 : s.quietHoursStart with
      | none => simp [next_allowed_send_time, hs, h2]
      | some qs => simp [next_allowed_send_time, hs, h1, h2]
  refine ⟨{ r with
      meta := metaSet
        (metaSet r.meta "dispatched_channels"
          (.tags ((parse_channels r.channels).map ReminderChannel.value)))
        "dispatched_at" (.s (isoOfInstant now)),
      sent := true, sentAt := some now, version := r.version + 1 }, ?_, rfl, rfl, rfl, ?_⟩
  all_goals {
    have hsu : scan_update tzdb users now r
        = some { r with
            meta := metaSet
              (metaSet r.meta "dispatched_channels"
                (.tags ((parse_channels r.channels).map ReminderChannel.value)))
              "dispatched_at" (.s (isoOfInstant now)),
            sent := true, sentAt := some now, version := r.version + 1 } := by
      unfold scan_update scan_reminder
      simp only [hfind, hnone]
      rfl
    have hfirst : (process_due_reminders tzdb batchSize users db now).1.find?
        (fun x => x.id = r.id)
        = some { r with
            meta := metaSet
              (metaSet r.meta "dispatched_channels"
                (.tags ((parse_channels r.channels).map ReminderChannel.value)))
              "dispatched_at" (.s (isoOfInstant now)),
            sent := true, sentAt := some now, version := r.version + 1 } := by
      rw [process_due_reminders_fst, find?_applyUpdates]
      rw [find?_id_of_mem db r r.id
        ((scanBatchOf_sublist batchSize db now).subset hbatch) hids rfl]
      simp only [Option.map_some']
      rw [find?_filterMap_scan tzdb users now _ r _ hbatch
        (scanBatchOf_nodup batchSize db now hids) hsu]
      rfl
    first
    | exact hfirst
    | {
      have hids1 : ((process_due_reminders tzdb batchSize users db now).1.map
          ReminderRow.id).Nodup := by
        rw [process_due_reminders_fst, applyUpdates_map_id]
        exact hids
      have hmem1 := List.mem_of_find?_eq_some hfirst
      rw [process_due_reminders_fst tzdb batchSize users
        (process_due_reminders tzdb batchSize users db now).1 now2,
        find?_applyUpdates]
      rw [find?_id_of_mem _ _ r.id hmem1 hids1 rfl]
      simp only [Option.map_some']
      rw [find?_filterMap_scan_none tzdb users now2 _ r.id ?hall]
      case hall =>
        intro x hx hxid
        have hxdue : x ∈ get_due_reminders
            (process_due_reminders tzdb batchSize users db now).1 now2 := by
          revert hx
          unfold scanBatchOf
          split
          · exact fun hx => List.mem_of_mem_take hx
          · exact fun hx => hx
        have hxmem := (List.mem_filter.mp hxdue).1
        have hxpred := (List.mem_filter.mp hxdue).2
        have hxeq : x = { r with
            meta := metaSet
              (metaSet r.meta "dispatched_channels"
                (.tags ((parse_channels r.channels).map ReminderChannel.value)))
              "dispatched_at" (.s (isoOfInstant now)),
            sent := true, sentAt := some now, version := r.version + 1 } :=
          List.inj_on_of_nodup_map hids1 hxmem hmem1 hxid
        rw [hxeq] at hxpred
        simp at hxpred
      rfl
    }
  }

/-- C5 witness: the due reminder of the owner without settings,
dispatched at minute 1380 and untouched by a second scan at minute
2000. -/
theorem claim_C5_witness :
    ∃ r1, (process_due_reminders tzdbEmpty 100 [plainUser] [quietReminder] 1380).1.find?
        (fun x => x.id = quietReminder.id) = some r1
      ∧ r1.sent = true ∧ r1.sentAt = some 1380 ∧ r1.id = quietReminder.id
      ∧ (process_due_reminders tzdbEmpty 100 [plainUser]
           (process_due_reminders tzdbEmpty 100 [plainUser] [quietReminder] 1380).1 2000).1.find?
           (fun x => x.id = quietReminder.id) = some r1 :=
  claim_C5_scan_idempotent tzdbEmpty 100 [plainUser] [quietReminder] 1380 2000
    quietReminder plainUser (by decide) (by decide) (by decide)
    (Or.inl rfl) (by decide)

/-! ## Pagination completeness (claim C2) -/

/-- Helper: the key order is irreflexive. -/
theorem keyLt_irrefl (a : Int × Nat) : ¬ keyLt a a := by
  unfold keyLt
  omega

/-- Helper: the key order is asymmetric. -/
theorem keyLt_asymm (a b : Int × Nat) : keyLt a b → ¬ keyLt b a := by
  unfold keyLt
  omega

/-- Helper: two keys not below each other in either composition chain. -/
theorem keyLt_not_not_trans (x y z : Int × Nat)
    (h1 : ¬ keyLt x y) (h2 : ¬ keyLt y z) : ¬ keyLt x z := by
  unfold keyLt at *
  omega

/-- Helper: distinct keys are comparable. -/
theorem keyLt_connex (a b : Int × Nat) (h : a ≠ b) : keyLt a b ∨ keyLt b a := by
  by_cases h1 : a.1 = b.1
  · by_cases h2 : a.2 = b.2
    · exact absurd (Prod.ext_iff.mpr ⟨h1, h2⟩) h
    · unfold keyLt
      omega
  · unfold keyLt
    omega

/-- Helper: the sort comparator is transitive. -/
theorem appLe_trans (a b c : ApplicationRow) :
    appLe a b → appLe b c → appLe a c := by
  simp only [appLe, Bool.not_eq_true', decide_eq_false_iff_not]
  exact keyLt_not_not_trans _ _ _

/-- Helper: the sort comparator is total. -/
theorem appLe_total (a b : ApplicationRow) : appLe a b || appLe b a := by
  simp only [appLe, Bool.or_eq_true, Bool.not_eq_true', decide_eq_false_iff_not]
  unfold keyLt
  omega

/-- Helper: a list sorted by the comparator with distinct ids is strictly
descending in the key order. -/
theorem pairwise_strict (l : List ApplicationRow)
    (hs : l.Pairwise (fun a b => appLe a b = true))
    (hn : (l.map ApplicationRow.id).Nodup) :
    l.Pairwise (fun a b => keyLt (appKey b) (appKey a)) := by
  have hn2 : l.Pairwise (fun a b => a.id ≠ b.id) := List.pairwise_map.mp hn
  refine hs.imp₂ (fun a b h1 h2 => ?_) hn2
  have h1n : ¬ keyLt (appKey a) (appKey b) := by
    simpa [appLe, Bool.not_eq_true', decide_eq_false_iff_not] using h1
  have hk : appKey a ≠ appKey b := fun he => h2 (congrArg Prod.snd he)
  rcases keyLt_connex _ _ hk with h | h
  · exact absurd h h1n
  · exact h

/-- Helper: two strictly descending lists that are permutations of each
other are equal: the listing order is deterministic. -/
theorem sorted_unique {l1 l2 : List ApplicationRow} (hp : l1.Perm l2)
    (h1 : l1.Pairwise (fun a b => keyLt (appKey b) (appKey a)))
    (h2 : l2.Pairwise (fun a b => keyLt (appKey b) (appKey a))) : l1 = l2 := by
  haveI : IsAntisymm ApplicationRow (fun a b => keyLt (appKey b) (appKey a)) :=
    ⟨fun a b ha hb => absurd ha (keyLt_asymm _ _ hb)⟩
  exact List.eq_of_perm_of_sorted hp h1 h2

/-- Helper: with distinct ids, sorting a filtered selection equals
filtering the sorted selection: the SQL plan (filter before order) and
the suffix view of the cursor predicate coincide. -/
theorem mergeSort_filter (l : List ApplicationRow) (p : ApplicationRow → Bool)
    (hn : (l.map ApplicationRow.id).Nodup) :
    (l.filter p).mergeSort appLe = (l.mergeSort appLe).filter p := by
  have hnf : ((l.filter p).map ApplicationRow.id).Nodup :=
    hn.sublist ((List.filter_sublist l).map _)
  have hperm : ((l.filter p).mergeSort appLe).Perm ((l.mergeSort appLe).filter p) :=
    (List.mergeSort_perm _ _).trans ((List.mergeSort_perm l appLe).symm.filter p)
  apply sorted_unique hperm
  · apply pairwise_strict
    · exact List.sorted_mergeSort (fun a b c => appLe_trans a b c) appLe_total _
    · exact ((List.mergeSort_perm (l.filter p) appLe).map ApplicationRow.id).nodup_iff.mpr hnf
  · apply pairwise_strict
    · exact (List.sorted_mergeSort (fun a b c => appLe_trans a b c) appLe_total l).filter p
    · refine List.Nodup.sublist ((List.filter_sublist _).map _) ?_
      exact ((List.mergeSort_perm l appLe).map ApplicationRow.id).nodup_iff.mpr hn

/-- Helper: in a strictly descending list, the rows passing the cursor
predicate of an element are exactly the suffix after that element: rows
already returned are never re-returned and no owner row is skipped. -/
theorem filter_cursor_of_append (x : ApplicationRow)
    (l1 l2 : List ApplicationRow)
    (h : (l1 ++ x :: l2).Pairwise (fun a b => keyLt (appKey b) (appKey a))) :
    (l1 ++ x :: l2).filter (cursorPred (appKey x)) = l2 := by
  induction l1 with
  | nil =>
    simp only [List.nil_append]
    have h2 := List.pairwise_cons.mp h
    rw [List.filter_cons]
    have hx : cursorPred (appKey x) x = false := by
      simp [cursorPred, keyLt_irrefl]
    rw [hx]
    simp only [Bool.false_eq_true, if_false]
    apply List.filter_eq_self.mpr
    intro b hb
    simp only [cursorPred, decide_eq_true_eq]
    exact h2.1 b hb
  | cons a rest ih =>
    rw [List.cons_append] at h ⊢
    have h2 := List.pairwise_cons.mp h
    have hax : keyLt (appKey x) (appKey a) := h2.1 x (by simp)
    rw [List.filter_cons]
    have hpa : cursorPred (appKey x) a = false := by
      simp only [cursorPred, decide_eq_false_iff_not]
      exact keyLt_asymm _ _ hax
    rw [hpa]
    simp only [Bool.false_eq_true, if_false]
    exact ih h2.2

/-- Helper: following the cursor chain starting from any page suffix of
the sorted owner listing returns exactly that suffix.  The cursor
hypothesis states that the rows selected under the cursor are the given
suffix of the sorted owner rows. -/
theorem list_chain_suffix (db : List ApplicationRow) (uid : Nat)
    (limit mps : Int) (h1 : 1 ≤ limit) (h2 : limit ≤ mps)
    (hids : (db.map ApplicationRow.id).Nodup) :
    ∀ (fuel : Nat) (cursor : Option (Int × Nat)) (suf : List ApplicationRow),
      (db.filter (fun r => r.userId = uid && cursorOk cursor r)).mergeSort appLe
        = suf →
      (∃ pre, (db.filter (fun r => r.userId = uid)).mergeSort appLe = pre ++ suf) →
      suf.length < fuel →
      list_chain db uid limit mps fuel cursor = .ok suf := by
  have hlim0 : ¬ (limit ≤ 0) := by omega
  have hlim1 : ¬ (mps < limit) := by omega
  have hlimnat : 1 ≤ limit.toNat := by omega
  have howner : ((db.filter (fun r => r.userId = uid)).map ApplicationRow.id).Nodup :=
    hids.sublist ((List.filter_sublist db).map _)
  have hsortednodup :
      (((db.filter (fun r => r.userId = uid)).mergeSort appLe).map
        ApplicationRow.id).Nodup :=
    ((List.mergeSort_perm _ appLe).map ApplicationRow.id).nodup_iff.mpr howner
  have hsorted : ((db.filter (fun r => r.userId = uid)).mergeSort appLe).Pairwise
      (fun a b => keyLt (appKey b) (appKey a)) :=
    pairwise_strict _
      (List.sorted_mergeSort (fun a b c => appLe_trans a b c) appLe_total _)
      hsortednodup
  intro fuel
  induction fuel with
  | zero =>
    intro cursor suf _ _ hlt
    omega
  | succ n ih =>
    intro cursor suf hS hpre hlt
    by_cases hmore : suf.length ≤ limit.toNat
    · have hpage : list_applications db uid limit mps cursor = .ok (suf, none) := by
        unfold list_applications
        rw [if_neg hlim0, if_neg hlim1]
        dsimp only
        rw [hS]
        rw [List.take_of_length_le (show suf.length ≤ limit.toNat + 1 by omega)]
        rw [List.take_of_length_le hmore]
        have hdec : decide (limit.toNat < suf.length) = false := by
          simp only [decide_eq_false_iff_not, not_lt]
          exact hmore
        rw [hdec]
        rfl
      unfold list_chain
      rw [hpage]
    · push_neg at hmore
      have htake1len : (suf.take (limit.toNat + 1)).length = limit.toNat + 1 := by
        rw [List.length_take]
        omega
      have htakelen : (suf.take limit.toNat).length = limit.toNat := by
        rw [List.length_take]
        omega
      rcases List.eq_nil_or_concat (suf.take limit.toNat) with hnil | ⟨q, y, hqy0⟩
      · rw [hnil] at htakelen
        simp at htakelen
        omega
      · have hqy : suf.take limit.toNat = q ++ [y] := by
          simpa [List.concat_eq_append] using hqy0
        have hpage : list_applications db uid limit mps cursor
            = .ok (suf.take limit.toNat, some (appKey y)) := by
          unfold list_applications
          rw [if_neg hlim0, if_neg hlim1]
          dsimp only
          rw [hS]
          rw [List.take_take, Nat.min_eq_left (Nat.le_succ _)]
          have hdec : decide (limit.toNat < (suf.take (limit.toNat + 1)).length)
              = true := by
            rw [htake1len]
            simp
          rw [hdec]
          rw [hqy, List.getLast?_concat]
          rfl
        -- decomposition of the sorted owner rows around y
        rcases hpre with ⟨pre, hpre⟩
        have hsufsplit : suf = (q ++ [y]) ++ suf.drop limit.toNat := by
          rw [← hqy, List.take_append_drop]
        have hdecomp : (db.filter (fun r => r.userId = uid)).mergeSort appLe
            = (pre ++ q) ++ y :: suf.drop limit.toNat := by
          conv_lhs => rw [hpre, hsufsplit]
          simp [List.append_assoc]
        have hS2 : (db.filter
              (fun r => r.userId = uid && cursorOk (some (appKey y)) r)).mergeSort
              appLe = suf.drop limit.toNat := by
          have hcomb : db.filter
                (fun r => r.userId = uid && cursorOk (some (appKey y)) r)
              = (db.filter (fun r => r.userId = uid)).filter
                  (cursorPred (appKey y)) := by
            rw [List.filter_filter]
            apply List.filter_congr
            intro r _
            simp [cursorOk, Bool.and_comm]
          rw [hcomb, mergeSort_filter _ _ howner, hdecomp]
          exact filter_cursor_of_append y (pre ++ q) (suf.drop limit.toNat)
            (hdecomp ▸ hsorted)
        have hrec : list_chain db uid limit mps n (some (appKey y))
            = .ok (suf.drop limit.toNat) := by
          apply ih (some (appKey y)) (suf.drop limit.toNat) hS2
          · exact ⟨pre ++ q ++ [y], by rw [hdecomp]; simp⟩
          · rw [List.length_drop]
            omega
        unfold list_chain
        rw [hpage]
        dsimp only
        rw [hrec]
        dsimp only
        rw [List.take_append_drop]

/-- C2: for every owner, every page limit in [1, MAX_PAGE_SIZE] and every
table with distinct primary keys, following the chain of next cursors
from the first page until the cursor is absent succeeds and concatenates
to a permutation of exactly the owner rows (each row exactly once, stated
by count as well), in strictly descending (created_at, id) order; the
fuel bound only needs to exceed the table size. -/
theorem claim_C2_pagination_complete
    (db : List ApplicationRow) (uid : Nat) (limit mps : Int) (fuel : Nat)
    (h1 : 1 ≤ limit) (h2 : limit ≤ mps)
    (hids : (db.map ApplicationRow.id).Nodup)
    (hfuel : db.length < fuel) :
    ∃ L, list_chain db uid limit mps fuel none = .ok L
      ∧ L.Perm (db.filter (fun r => r.userId = uid))
      ∧ L.Pairwise (fun a b => keyLt (appKey b) (appKey a))
      ∧ (∀ x, L.count x = (db.filter (fun r => r.userId = uid)).count x) := by
  have howner : ((db.filter (fun r => r.userId = uid)).map ApplicationRow.id).Nodup :=
    hids.sublist ((List.filter_sublist db).map _)
  have hsortednodup :
      (((db.filter (fun r => r.userId = uid)).mergeSort appLe).map
        ApplicationRow.id).Nodup :=
    ((List.mergeSort_perm _ appLe).map ApplicationRow.id).nodup_iff.mpr howner
  refine ⟨(db.filter (fun r => r.userId = uid)).mergeSort appLe, ?_,
    List.mergeSort_perm _ _,
    pairwise_strict _
      (List.sorted_mergeSort (fun a b c => appLe_trans a b c) appLe_total _)
      hsortednodup,
    fun x => (List.mergeSort_perm _ _).count_eq x⟩
  apply list_chain_suffix db uid limit mps h1 h2 hids fuel none
  · have hfeq : db.filter (fun r => r.userId = uid && cursorOk none r)
        = db.filter (fun r => r.userId = uid) := by
      apply List.filter_congr
      intro r _
      simp [cursorOk]
    rw [hfeq]
  · exact ⟨[], by simp⟩
  · have hle := List.length_filter_le (fun r => decide (r.userId = uid)) db
    rw [List.length_mergeSort]
    omega

/-- C2 witness: three owner rows (two sharing a timestamp) plus a foreign
row, walked with page size one. -/
theorem claim_C2_witness :
    ∃ L, list_chain pagDb 1 1 100 5 none = .ok L
      ∧ L.Perm (pagDb.filter (fun r => r.userId = 1))
      ∧ L.Pairwise (fun a b => keyLt (appKey b) (appKey a))
      ∧ (∀ x, L.count x = (pagDb.filter (fun r => r.userId = 1)).count x) :=
  claim_C2_pagination_complete pagDb 1 1 100 5 (by decide) (by decide)
    (by decide) (by decide)
